import Mathlib

/-!
# Collaborative drawing board backend — verification development

Shallow embedding of the session/room core of the collaborative
drawing board backend (`backend/app/core/board_room.py`,
`backend/app/core/shapes.py`, `backend/app/database/service.py`,
`backend/app/ws/websocket_manager.py`, `backend/app/ws/connection_manager.py`,
`backend/main.py`), together with theorems settling the specification
claims about it.

Modelling conventions:
* Python floats (coordinates, timestamps, tolerances) are modelled as `ℚ`;
  the logic under verification only adds, multiplies, divides and compares
  them, so rational arithmetic is an exact model of the ideal reals the
  spec reasons about.
* `math.sqrt(d) <= t` comparisons (all tolerances in the source are
  nonnegative) are rendered as `d ≤ t^2`, which is equivalent and exact.
* Python dicts keyed by id are modelled as association lists in insertion
  order (Python dicts preserve insertion order; an assignment to an
  existing key overwrites in place, otherwise appends).
* Database tables are modelled as lists of rows in insertion order;
  `query(...).first()` is `List.find?`.
-/

/-! ## Geometry engine (`backend/app/core/shapes.py`) -/

/-- A 2-D coordinate pair as used by the geometry helpers. -/
structure Pt where
  x : ℚ
  y : ℚ
deriving DecidableEq

/-- Squared Euclidean distance.  `GeometryUtils.point_distance` returns the
square root of this quantity; every call site compares that distance to a
nonnegative bound `t`, which is equivalent to comparing this square
to `t^2`. -/
def dist_sq (x1 y1 x2 y2 : ℚ) : ℚ :=
  (x2 - x1) ^ 2 + (y2 - y1) ^ 2

/-- The unclamped projection parameter `t` of `GeometryUtils.point_on_line`:
`t = ((x - x1) * (x2 - x1) + (y - y1) * (y2 - y1)) / line_length ** 2`,
where `line_length ** 2` equals `dist_sq x1 y1 x2 y2`. -/
def proj_t (x y x1 y1 x2 y2 : ℚ) : ℚ :=
  ((x - x1) * (x2 - x1) + (y - y1) * (y2 - y1)) / dist_sq x1 y1 x2 y2

/-- `t = max(0, min(1, t))` from `GeometryUtils.point_on_line`. -/
def clamp01 (t : ℚ) : ℚ := max 0 (min 1 t)

/-- `GeometryUtils.point_on_line` (`shapes.py`).  The source computes
`line_length = point_distance(x1, y1, x2, y2)`; when it is zero it returns
`point_distance(x, y, x1, y1) <= tolerance`, otherwise it projects the
point onto the segment, clamps the parameter to `[0, 1]` and compares the
distance from the projection to the point against `tolerance`.
`line_length == 0` is rendered as `dist_sq x1 y1 x2 y2 = 0` and each
distance comparison as the squared comparison. -/
def point_on_line (x y x1 y1 x2 y2 tolerance : ℚ) : Bool :=
  if dist_sq x1 y1 x2 y2 = 0 then
    decide (dist_sq x y x1 y1 ≤ tolerance ^ 2)
  else
    decide (dist_sq x y
      (x1 + clamp01 (proj_t x y x1 y1 x2 y2) * (x2 - x1))
      (y1 + clamp01 (proj_t x y x1 y1 x2 y2) * (y2 - y1)) ≤ tolerance ^ 2)

/-- The per-point hit test inside `EraserEngine.cut_stroke`: the point is
within `eraser_width` of some point of the eraser path
(`point_distance(point, eraser_point) <= self.eraser_width`, squared
rendering). -/
def should_cut (eraser_width : ℚ) (eraser_path : List Pt) (p : Pt) : Bool :=
  eraser_path.any fun e => decide (dist_sq p.x p.y e.x e.y ≤ eraser_width ^ 2)

/-- The point loop of `EraserEngine.cut_stroke`: state is the accumulated
`segments` and the `current_segment`; each point is appended to the current
segment, and when the point is near the eraser path and the current segment
has more than one element, the segment minus its last point is emitted and
a new segment is started from the current point.  At the end a non-empty
current segment is emitted. -/
def cut_stroke_loop (eraser_width : ℚ) (eraser_path : List Pt) :
    List (List Pt) → List Pt → List Pt → List (List Pt)
  | segments, current, [] =>
      if current.isEmpty then segments else segments ++ [current]
  | segments, current, p :: rest =>
      let cur := current ++ [p]
      if should_cut eraser_width eraser_path p && decide (1 < cur.length) then
        cut_stroke_loop eraser_width eraser_path
          (segments ++ [cur.dropLast]) [p] rest
      else
        cut_stroke_loop eraser_width eraser_path segments cur rest

/-- `EraserEngine.cut_stroke` (`shapes.py`): cut a stroke into segments
based on eraser path intersections.  Returns `[stroke_points]` when either
input list is empty.  `eraser_width` is the engine attribute
(`self.eraser_width`, default 20). -/
def cut_stroke (eraser_width : ℚ) (stroke_points eraser_path : List Pt) :
    List (List Pt) :=
  if stroke_points.isEmpty || eraser_path.isEmpty then [stroke_points]
  else cut_stroke_loop eraser_width eraser_path [] [] stroke_points

/-! ### Lemmas about `cut_stroke` -/

lemma cut_stroke_loop_flatten (eraser_width : ℚ) (eraser_path : List Pt) :
    ∀ (rest : List Pt) (segments : List (List Pt)) (current : List Pt),
      (cut_stroke_loop eraser_width eraser_path segments current rest).flatten =
        segments.flatten ++ current ++ rest := by
  intro rest
  induction rest with
  | nil =>
      intro segments current
      simp only [cut_stroke_loop]
      by_cases h : current.isEmpty
      · simp [h, List.isEmpty_iff.mp h]
      · simp [h]
  | cons p rest ih =>
      intro segments current
      simp only [cut_stroke_loop]
      by_cases h : (should_cut eraser_width eraser_path p &&
          decide (1 < (current ++ [p]).length)) = true
      · simp only [h, if_true]
        rw [ih]
        simp [List.dropLast_concat]
      · simp only [h]
        rw [if_neg (by simp [h]), ih]
        simp

lemma dist_sq_nonneg (x1 y1 x2 y2 : ℚ) : 0 ≤ dist_sq x1 y1 x2 y2 := by
  unfold dist_sq; positivity

lemma dist_sq_eq_zero_iff (x1 y1 x2 y2 : ℚ) :
    dist_sq x1 y1 x2 y2 = 0 ↔ x2 = x1 ∧ y2 = y1 := by
  unfold dist_sq
  constructor
  · intro h
    have h1 : (x2 - x1) ^ 2 = 0 := by nlinarith [sq_nonneg (x2 - x1), sq_nonneg (y2 - y1)]
    have h2 : (y2 - y1) ^ 2 = 0 := by nlinarith [sq_nonneg (x2 - x1), sq_nonneg (y2 - y1)]
    exact ⟨by nlinarith [h1], by nlinarith [h2]⟩
  · rintro ⟨rfl, rfl⟩; ring

lemma clamp01_nonneg (t : ℚ) : 0 ≤ clamp01 t := le_max_left 0 (min 1 t)

lemma clamp01_le_one (t : ℚ) : clamp01 t ≤ 1 :=
  max_le zero_le_one (min_le_left 1 t)

/-- The clamped projection is the closest point of the segment: for every
parameter `s ∈ [0, 1]`, the distance from `(x, y)` to the clamped
projection is at most the distance to the segment point at parameter
`s`. -/
lemma clamp_proj_min (x y x1 y1 x2 y2 s : ℚ)
    (hL : dist_sq x1 y1 x2 y2 ≠ 0) (hs0 : 0 ≤ s) (hs1 : s ≤ 1) :
    dist_sq x y (x1 + clamp01 (proj_t x y x1 y1 x2 y2) * (x2 - x1))
        (y1 + clamp01 (proj_t x y x1 y1 x2 y2) * (y2 - y1)) ≤
      dist_sq x y (x1 + s * (x2 - x1)) (y1 + s * (y2 - y1)) := by
  have hL0 : 0 < dist_sq x1 y1 x2 y2 :=
    lt_of_le_of_ne (dist_sq_nonneg x1 y1 x2 y2) (Ne.symm hL)
  have hLe : dist_sq x1 y1 x2 y2 = (x2 - x1) ^ 2 + (y2 - y1) ^ 2 := rfl
  have hte : proj_t x y x1 y1 x2 y2 =
      ((x - x1) * (x2 - x1) + (y - y1) * (y2 - y1)) / dist_sq x1 y1 x2 y2 := rfl
  rcases le_or_lt (proj_t x y x1 y1 x2 y2) 0 with hc0 | hcpos
  · -- the parameter clamps to 0
    have hclamp : clamp01 (proj_t x y x1 y1 x2 y2) = 0 := by
      unfold clamp01
      rw [min_eq_right (hc0.trans zero_le_one), max_eq_left hc0]
    have hc : (x - x1) * (x2 - x1) + (y - y1) * (y2 - y1) ≤ 0 := by
      by_contra hpos
      push_neg at hpos
      have : 0 < proj_t x y x1 y1 x2 y2 := by
        rw [hte]; exact div_pos hpos hL0
      linarith
    rw [hclamp]
    unfold dist_sq
    nlinarith [mul_nonneg (mul_nonneg hs0 hs0)
        (show (0 : ℚ) ≤ (x2 - x1) ^ 2 + (y2 - y1) ^ 2 by positivity),
      mul_nonneg hs0 (neg_nonneg.mpr hc)]
  · rcases le_or_lt 1 (proj_t x y x1 y1 x2 y2) with hc1 | hc1
    · -- the parameter clamps to 1
      have hclamp : clamp01 (proj_t x y x1 y1 x2 y2) = 1 := by
        unfold clamp01
        rw [min_eq_left hc1, max_eq_right zero_le_one]
      have hcL : (x2 - x1) ^ 2 + (y2 - y1) ^ 2 ≤
          (x - x1) * (x2 - x1) + (y - y1) * (y2 - y1) := by
        have h1 : dist_sq x1 y1 x2 y2 ≤
            (x - x1) * (x2 - x1) + (y - y1) * (y2 - y1) :=
          (one_le_div hL0).mp (hte ▸ hc1)
        rw [hLe] at h1
        exact h1
      rw [hclamp]
      unfold dist_sq
      nlinarith [mul_nonneg (sub_nonneg.mpr hs1) (sub_nonneg.mpr hcL),
        mul_nonneg
          (show (0 : ℚ) ≤ (x2 - x1) ^ 2 + (y2 - y1) ^ 2 by positivity)
          (sq_nonneg (1 - s))]
    · -- interior: the clamp is the exact projection parameter
      have hclamp : clamp01 (proj_t x y x1 y1 x2 y2) = proj_t x y x1 y1 x2 y2 := by
        unfold clamp01
        rw [min_eq_right hc1.le, max_eq_right hcpos.le]
      rw [hclamp]
      set u : ℚ := proj_t x y x1 y1 x2 y2 with hudef
      have hu2 : u * ((x2 - x1) ^ 2 + (y2 - y1) ^ 2) =
          (x - x1) * (x2 - x1) + (y - y1) * (y2 - y1) := by
        rw [hte, ← hLe]
        exact div_mul_cancel₀ _ (ne_of_gt hL0)
      have key : dist_sq x y (x1 + s * (x2 - x1)) (y1 + s * (y2 - y1)) -
          dist_sq x y (x1 + u * (x2 - x1)) (y1 + u * (y2 - y1)) =
          ((x2 - x1) ^ 2 + (y2 - y1) ^ 2) * (s - u) ^ 2 +
            2 * (s - u) * (u * ((x2 - x1) ^ 2 + (y2 - y1) ^ 2) -
              ((x - x1) * (x2 - x1) + (y - y1) * (y2 - y1))) := by
        unfold dist_sq; ring
      rw [hu2, sub_self, mul_zero, add_zero] at key
      linarith [key,
        mul_nonneg
          (show (0 : ℚ) ≤ (x2 - x1) ^ 2 + (y2 - y1) ^ 2 by positivity)
          (sq_nonneg (s - u))]

/-- C9: for all points `p = (x, y)`, segment endpoints `a = (x1, y1)`,
`b = (x2, y2)` and tolerance `t ≥ 0`, `point_on_line` returns true exactly
when some point of the segment `a + s·(b − a)`, `s ∈ [0, 1]`, is within
distance `t` of `p` — equivalently, when the closest point of the segment
is within distance `t` (the minimum over the compact segment is attained,
so the existential and the minimum formulations agree); distance bounds
are stated in squared form, `dist_sq ≤ t^2`, exact for `t ≥ 0`.  When
`a = b` the test degenerates to comparing the distance from `p` to `a`
against `t`. -/
theorem point_on_line_iff_near_segment (x y x1 y1 x2 y2 t : ℚ) (ht : 0 ≤ t) :
    (point_on_line x y x1 y1 x2 y2 t = true ↔
      ∃ s : ℚ, 0 ≤ s ∧ s ≤ 1 ∧
        dist_sq x y (x1 + s * (x2 - x1)) (y1 + s * (y2 - y1)) ≤ t ^ 2) ∧
    (x1 = x2 ∧ y1 = y2 →
      (point_on_line x y x1 y1 x2 y2 t = true ↔ dist_sq x y x1 y1 ≤ t ^ 2)) := by
  constructor
  · by_cases hL : dist_sq x1 y1 x2 y2 = 0
    · obtain ⟨hx, hy⟩ := (dist_sq_eq_zero_iff x1 y1 x2 y2).mp hL
      subst hx; subst hy
      simp only [point_on_line, if_pos hL, decide_eq_true_eq]
      constructor
      · intro h
        exact ⟨0, le_refl 0, zero_le_one, by simpa using h⟩
      · rintro ⟨s, _, _, h⟩
        simpa using h
    · simp only [point_on_line, if_neg hL, decide_eq_true_eq]
      constructor
      · intro h
        exact ⟨clamp01 (proj_t x y x1 y1 x2 y2),
          clamp01_nonneg _, clamp01_le_one _, h⟩
      · rintro ⟨s, hs0, hs1, h⟩
        exact le_trans (clamp_proj_min x y x1 y1 x2 y2 s hL hs0 hs1) h
  · rintro ⟨rfl, rfl⟩
    have hL : dist_sq x1 y1 x1 y1 = 0 := by unfold dist_sq; ring
    simp [point_on_line, if_pos hL]

/-- Witness for the claim C9 theorem at the concrete input
`p = (12, 10)`, segment from `(0, 10)` to `(20, 10)`, tolerance 5. -/
theorem point_on_line_iff_near_segment_witness :
    (0 : ℚ) ≤ 5 ∧
      ((point_on_line 12 10 0 10 20 10 5 = true ↔
        ∃ s : ℚ, 0 ≤ s ∧ s ≤ 1 ∧
          dist_sq 12 10 (0 + s * (20 - 0)) (10 + s * (10 - 10)) ≤ 5 ^ 2) ∧
      ((0 : ℚ) = 20 ∧ (10 : ℚ) = 10 →
        (point_on_line 12 10 0 10 20 10 5 = true ↔
          dist_sq 12 10 0 10 ≤ 5 ^ 2))) :=
  ⟨by norm_num, point_on_line_iff_near_segment 12 10 0 10 20 10 5 (by norm_num)⟩

/-- C10: for every non-empty stroke point list and every eraser path,
the segments returned by `cut_stroke` concatenate back to exactly the
input point list — every input point appears exactly once, in the original
order; a point near the eraser path only starts a new segment and is
never dropped. -/
theorem cut_stroke_flatten_eq (eraser_width : ℚ)
    (stroke_points eraser_path : List Pt) (h : stroke_points ≠ []) :
    (cut_stroke eraser_width stroke_points eraser_path).flatten =
      stroke_points := by
  unfold cut_stroke
  by_cases he : stroke_points.isEmpty || eraser_path.isEmpty
  · simp [he]
  · rw [if_neg he, cut_stroke_loop_flatten]
    simp

/-- Witness for the claim C10 theorem: a two-point stroke cut by a
one-point eraser path with `eraser_width = 20`. -/
theorem cut_stroke_flatten_eq_witness :
    ([⟨10, 10⟩, ⟨30, 40⟩] : List Pt) ≠ [] ∧
      (cut_stroke 20 [⟨10, 10⟩, ⟨30, 40⟩] [⟨12, 10⟩]).flatten =
        [⟨10, 10⟩, ⟨30, 40⟩] :=
  ⟨by decide, cut_stroke_flatten_eq 20 _ _ (by decide)⟩

/-! ## Association-list model of Python dicts

`BoardRoom` keeps its users, strokes, shapes and texts in dicts keyed by
id.  Python dicts preserve insertion order; assigning to an existing key
overwrites the value in place, assigning to a new key appends; `del`
removes the entry. -/

/-- `d[k]` lookup returning `none` when the key is absent. -/
def lookupKey {α : Type} (k : String) : List (String × α) → Option α
  | [] => none
  | (k1, v1) :: rest => if k1 = k then some v1 else lookupKey k rest

/-- `k in d`. -/
def containsKey {α : Type} (k : String) (l : List (String × α)) : Bool :=
  (lookupKey k l).isSome

/-- `d[k] = v`: overwrite in place when the key exists, append otherwise. -/
def upsert {α : Type} (k : String) (v : α) : List (String × α) → List (String × α)
  | [] => [(k, v)]
  | (k1, v1) :: rest =>
      if k1 = k then (k1, v) :: rest else (k1, v1) :: upsert k v rest

/-- `del d[k]` (the key is unique in any list built through `upsert`). -/
def eraseKey {α : Type} (k : String) : List (String × α) → List (String × α)
  | [] => []
  | (k1, v1) :: rest =>
      if k1 = k then rest else (k1, v1) :: eraseKey k rest

lemma upsert_length_of_not_contains {α : Type} (k : String) (v : α)
    (l : List (String × α)) (h : containsKey k l = false) :
    (upsert k v l).length = l.length + 1 := by
  induction l with
  | nil => rfl
  | cons kv rest ih =>
      obtain ⟨k1, v1⟩ := kv
      simp only [containsKey, lookupKey] at h
      by_cases hk : k1 = k
      · simp [hk] at h
      · simp only [upsert, if_neg hk, List.length_cons]
        rw [ih]
        simp only [containsKey]
        simpa [lookupKey, hk] using h

lemma eraseKey_length_of_contains {α : Type} (k : String)
    (l : List (String × α)) (h : containsKey k l = true) :
    (eraseKey k l).length + 1 = l.length := by
  induction l with
  | nil => simp [containsKey, lookupKey] at h
  | cons kv rest ih =>
      obtain ⟨k1, v1⟩ := kv
      by_cases hk : k1 = k
      · simp [eraseKey, hk]
      · simp only [eraseKey, if_neg hk, List.length_cons]
        rw [← ih]
        simp only [containsKey]
        simp only [containsKey, lookupKey, if_neg hk] at h
        exact h

lemma length_pos_of_contains {α : Type} (k : String)
    (l : List (String × α)) (h : containsKey k l = true) :
    1 ≤ l.length := by
  cases l with
  | nil => simp [containsKey, lookupKey] at h
  | cons kv rest => simp

/-! ## In-memory room state (`backend/app/core/board_room.py`) -/

/-- `UserRole` enum. -/
inductive UserRole where
  | admin
  | user
deriving DecidableEq

/-- The `Point` dataclass of `board_room.py`. -/
structure Point where
  x : ℚ
  y : ℚ
  pressure : ℚ := 1 / 2
  timestamp : ℚ := 0
deriving DecidableEq

/-- The `Stroke` dataclass of `board_room.py`. -/
structure Stroke where
  id : String
  user_id : String
  layer_id : String
  brush_type : String
  color : String
  width : ℚ
  points : List Point
  created_at : ℚ
deriving DecidableEq

/-- The `User` dataclass of `board_room.py` (the `active_tool` enum is kept
as its string value). -/
structure User where
  id : String
  nickname : String
  role : UserRole
  cursor_x : ℚ := 0
  cursor_y : ℚ := 0
  active_tool : String := "pen"
  color : String := "#000000"
  connected_at : ℚ := 0
deriving DecidableEq

/-- Shape and text payloads are stored by `BoardRoom` as the dicts handed
in (`self.shapes[shape_id] = shape_data`); the room never inspects them,
so they are modelled as opaque association lists of string fields. -/
abbrev ObjDict := List (String × String)

/-- One per-user rate window of `BoardRoom.check_rate_limit`:
`{"points": ..., "reset_time": ...}`. -/
structure RateState where
  points : ℤ
  reset_time : ℚ
deriving DecidableEq

/-- The `BoardRoom` class state.  Timestamp bookkeeping (`created_at`,
`last_activity`) and the `banned_tokens` set are omitted: no operation or
claim under verification reads them.  `shutdown_timer` is `true` when an
asyncio shutdown task is scheduled.  Every method that reads
`time.time()` takes the current time `now : ℚ` as an argument. -/
structure BoardRoom where
  board_id : String
  admin_id : String
  users : List (String × User)
  strokes : List (String × Stroke)
  shapes : List (String × ObjDict)
  texts : List (String × ObjDict)
  timeouts : List (String × ℚ)
  object_count : ℤ
  max_objects : ℤ
  max_users : ℕ
  user_rates : List (String × RateState)
  admin_disconnected_at : Option ℚ
  shutdown_timer : Bool
deriving DecidableEq

/-- `BoardRoom.__init__`. -/
def BoardRoom.init (board_id admin_id : String) : BoardRoom where
  board_id := board_id
  admin_id := admin_id
  users := []
  strokes := []
  shapes := []
  texts := []
  timeouts := []
  object_count := 0
  max_objects := 5000
  max_users := 10
  user_rates := []
  admin_disconnected_at := none
  shutdown_timer := false

/-- `BoardRoom.add_user`: reject when the room already holds `max_users`
users or the user is under an active timeout; otherwise insert the user
and, when the admin reconnects, clear the disconnect timestamp and cancel
the shutdown timer. -/
def BoardRoom.add_user (r : BoardRoom) (now : ℚ) (user_id nickname : String)
    (role : UserRole) : Bool × BoardRoom :=
  if r.max_users ≤ r.users.length then (false, r)
  else if (match lookupKey user_id r.timeouts with
      | some t => decide (now < t)
      | none => false) then (false, r)
  else
    let r1 := { r with
      users := upsert user_id
        { id := user_id, nickname := nickname, role := role,
          connected_at := now } r.users }
    if user_id = r.admin_id ∧ r.admin_disconnected_at ≠ none then
      (true, { r1 with admin_disconnected_at := none, shutdown_timer := false })
    else (true, r1)

/-- `BoardRoom.add_stroke`. -/
def BoardRoom.add_stroke (r : BoardRoom) (stroke : Stroke) : Bool × BoardRoom :=
  if r.max_objects ≤ r.object_count then (false, r)
  else (true, { r with
    strokes := upsert stroke.id stroke r.strokes,
    object_count := r.object_count + 1 })

/-- `BoardRoom.add_shape`. -/
def BoardRoom.add_shape (r : BoardRoom) (shape_id : String)
    (shape_data : ObjDict) : Bool × BoardRoom :=
  if r.max_objects ≤ r.object_count then (false, r)
  else (true, { r with
    shapes := upsert shape_id shape_data r.shapes,
    object_count := r.object_count + 1 })

/-- `BoardRoom.add_text`. -/
def BoardRoom.add_text (r : BoardRoom) (text_id : String)
    (text_data : ObjDict) : Bool × BoardRoom :=
  if r.max_objects ≤ r.object_count then (false, r)
  else (true, { r with
    texts := upsert text_id text_data r.texts,
    object_count := r.object_count + 1 })

/-- `BoardRoom.delete_object`: look the id up in strokes, then shapes,
then texts; on success decrement the count with `max(0, count - 1)`. -/
def BoardRoom.delete_object (r : BoardRoom) (object_id : String) :
    Bool × BoardRoom :=
  if containsKey object_id r.strokes then
    (true, { r with
      strokes := eraseKey object_id r.strokes,
      object_count := max 0 (r.object_count - 1) })
  else if containsKey object_id r.shapes then
    (true, { r with
      shapes := eraseKey object_id r.shapes,
      object_count := max 0 (r.object_count - 1) })
  else if containsKey object_id r.texts then
    (true, { r with
      texts := eraseKey object_id r.texts,
      object_count := max 0 (r.object_count - 1) })
  else (false, r)

/-- The one-window kernel of `BoardRoom.check_rate_limit`: create the
window on first use (`points = 0`, `reset_time = now + 60`), reset it when
`now > reset_time`, then reject when `points + requested > 1000` and
otherwise add the requested points. -/
def rate_step (st : Option RateState) (now : ℚ) (points : ℤ) :
    Bool × RateState :=
  let st0 := match st with
    | none => { points := 0, reset_time := now + 60 : RateState }
    | some s => s
  let st1 := if now > st0.reset_time then
      { points := 0, reset_time := now + 60 : RateState }
    else st0
  if 1000 < st1.points + points then (false, st1)
  else (true, { st1 with points := st1.points + points })

/-- `BoardRoom.check_rate_limit`: apply the window kernel to the calling
user's entry of `self.user_rates` (creating or mutating it in place). -/
def BoardRoom.check_rate_limit (r : BoardRoom) (now : ℚ) (user_id : String)
    (points : ℤ) : Bool × BoardRoom :=
  let res := rate_step (lookupKey user_id r.user_rates) now points
  (res.1, { r with user_rates := upsert user_id res.2 r.user_rates })

/-! ## Object add/delete sequences (claim about `object_count`) -/

/-- One object-mutating operation on a `BoardRoom`. -/
inductive RoomOp where
  | addStroke (stroke : Stroke)
  | addShape (shape_id : String) (shape_data : ObjDict)
  | addText (text_id : String) (text_data : ObjDict)
  | deleteObject (object_id : String)
deriving DecidableEq

/-- Apply one operation (the returned success flag only matters to
callers). -/
def applyRoomOp (r : BoardRoom) : RoomOp → BoardRoom
  | .addStroke s => (r.add_stroke s).2
  | .addShape i d => (r.add_shape i d).2
  | .addText i d => (r.add_text i d).2
  | .deleteObject i => (r.delete_object i).2

/-- Apply a sequence of operations in order. -/
def applyRoomOps (r : BoardRoom) (ops : List RoomOp) : BoardRoom :=
  ops.foldl applyRoomOp r

/-- The number of live Stroke + Shape + Text entries. -/
def live_objects (r : BoardRoom) : ℕ :=
  r.strokes.length + r.shapes.length + r.texts.length

/-- An add operation is *fresh* when its object id is not already live in
the map of its own kind (a duplicate id would make the dict assignment
overwrite the existing entry while the count is still incremented). -/
def roomOpFresh (r : BoardRoom) : RoomOp → Bool
  | .addStroke s => !containsKey s.id r.strokes
  | .addShape i _ => !containsKey i r.shapes
  | .addText i _ => !containsKey i r.texts
  | .deleteObject _ => true

/-- Every operation of the sequence is fresh at its application point. -/
def roomOpsFresh (r : BoardRoom) : List RoomOp → Bool
  | [] => true
  | op :: rest => roomOpFresh r op && roomOpsFresh (applyRoomOp r op) rest

lemma applyRoomOp_max_objects (r : BoardRoom) (op : RoomOp) :
    (applyRoomOp r op).max_objects = r.max_objects := by
  cases op <;>
    simp only [applyRoomOp, BoardRoom.add_stroke, BoardRoom.add_shape,
      BoardRoom.add_text, BoardRoom.delete_object] <;>
    split_ifs <;> rfl

lemma applyRoomOp_bounds (r : BoardRoom) (op : RoomOp)
    (h0 : 0 ≤ r.object_count) (h1 : r.object_count ≤ r.max_objects) :
    0 ≤ (applyRoomOp r op).object_count ∧
      (applyRoomOp r op).object_count ≤ r.max_objects := by
  have hmax : max 0 (r.object_count - 1) = 0 ∨
      max 0 (r.object_count - 1) = r.object_count - 1 := by
    rcases le_total (r.object_count - 1) 0 with h | h
    · exact Or.inl (max_eq_left h)
    · exact Or.inr (max_eq_right h)
  cases op <;>
    simp only [applyRoomOp, BoardRoom.add_stroke, BoardRoom.add_shape,
      BoardRoom.add_text, BoardRoom.delete_object] <;>
    split_ifs with hif hif2 hif3 <;> simp <;> rcases hmax with h | h <;> omega

lemma applyRoomOp_count_eq (r : BoardRoom) (op : RoomOp)
    (heq : r.object_count = (live_objects r : ℤ))
    (hfresh : roomOpFresh r op = true) :
    (applyRoomOp r op).object_count =
      (live_objects (applyRoomOp r op) : ℤ) := by
  cases op with
  | addStroke s =>
      simp only [roomOpFresh, Bool.not_eq_eq_eq_not, Bool.not_true] at hfresh
      simp only [applyRoomOp, BoardRoom.add_stroke]
      split_ifs with hif
      · exact heq
      · simp only [live_objects] at heq ⊢
        rw [upsert_length_of_not_contains _ _ _ hfresh]
        push_cast at heq ⊢
        omega
  | addShape i d =>
      simp only [roomOpFresh, Bool.not_eq_eq_eq_not, Bool.not_true] at hfresh
      simp only [applyRoomOp, BoardRoom.add_shape]
      split_ifs with hif
      · exact heq
      · simp only [live_objects] at heq ⊢
        rw [upsert_length_of_not_contains _ _ _ hfresh]
        push_cast at heq ⊢
        omega
  | addText i d =>
      simp only [roomOpFresh, Bool.not_eq_eq_eq_not, Bool.not_true] at hfresh
      simp only [applyRoomOp, BoardRoom.add_text]
      split_ifs with hif
      · exact heq
      · simp only [live_objects] at heq ⊢
        rw [upsert_length_of_not_contains _ _ _ hfresh]
        push_cast at heq ⊢
        omega
  | deleteObject i =>
      simp only [applyRoomOp, BoardRoom.delete_object]
      split_ifs with hif hif2 hif3
      · have hlen := eraseKey_length_of_contains i r.strokes hif
        have hpos := length_pos_of_contains i r.strokes hif
        simp only [live_objects] at heq ⊢
        have hcl : max 0 (r.object_count - 1) = r.object_count - 1 := by
          apply max_eq_right; push_cast at heq; omega
        rw [hcl]
        push_cast at heq ⊢
        omega
      · have hlen := eraseKey_length_of_contains i r.shapes hif2
        have hpos := length_pos_of_contains i r.shapes hif2
        simp only [live_objects] at heq ⊢
        have hcl : max 0 (r.object_count - 1) = r.object_count - 1 := by
          apply max_eq_right; push_cast at heq; omega
        rw [hcl]
        push_cast at heq ⊢
        omega
      · have hlen := eraseKey_length_of_contains i r.texts hif3
        have hpos := length_pos_of_contains i r.texts hif3
        simp only [live_objects] at heq ⊢
        have hcl : max 0 (r.object_count - 1) = r.object_count - 1 := by
          apply max_eq_right; push_cast at heq; omega
        rw [hcl]
        push_cast at heq ⊢
        omega
      · exact heq

lemma applyRoomOps_bounds (ops : List RoomOp) :
    ∀ r : BoardRoom, 0 ≤ r.object_count → r.object_count ≤ r.max_objects →
      0 ≤ (applyRoomOps r ops).object_count ∧
        (applyRoomOps r ops).object_count ≤ (applyRoomOps r ops).max_objects := by
  induction ops with
  | nil => intro r h0 h1; exact ⟨h0, h1⟩
  | cons op rest ih =>
      intro r h0 h1
      have hstep := applyRoomOp_bounds r op h0 h1
      have hmax := applyRoomOp_max_objects r op
      simpa [applyRoomOps] using
        ih (applyRoomOp r op) hstep.1 (hmax ▸ hstep.2)

lemma applyRoomOps_count_eq (ops : List RoomOp) :
    ∀ r : BoardRoom, r.object_count = (live_objects r : ℤ) →
      roomOpsFresh r ops = true →
      (applyRoomOps r ops).object_count =
        (live_objects (applyRoomOps r ops) : ℤ) := by
  induction ops with
  | nil => intro r heq _; exact heq
  | cons op rest ih =>
      intro r heq hfresh
      simp only [roomOpsFresh, Bool.and_eq_true] at hfresh
      simpa [applyRoomOps] using
        ih (applyRoomOp r op) (applyRoomOp_count_eq r op heq hfresh.1) hfresh.2

/-- C1 (amended): starting from a freshly created board, after any
sequence of add/delete operations the object count stays within
`[0, max_objects]`; and provided every add uses an object id that is not
already live in the map of its own kind, `object_count` equals the number
of live Stroke + Shape + Text entries.  (The freshness proviso is forced:
a duplicate-id add overwrites the dict entry while still incrementing the
count, see the counterexample.) -/
theorem object_count_invariant (bid aid : String) (ops : List RoomOp) :
    (roomOpsFresh (BoardRoom.init bid aid) ops = true →
      (applyRoomOps (BoardRoom.init bid aid) ops).object_count =
        (live_objects (applyRoomOps (BoardRoom.init bid aid) ops) : ℤ)) ∧
    0 ≤ (applyRoomOps (BoardRoom.init bid aid) ops).object_count ∧
    (applyRoomOps (BoardRoom.init bid aid) ops).object_count ≤
      (applyRoomOps (BoardRoom.init bid aid) ops).max_objects := by
  refine ⟨fun hfresh => ?_, ?_⟩
  · exact applyRoomOps_count_eq ops (BoardRoom.init bid aid) (by rfl) hfresh
  · exact applyRoomOps_bounds ops (BoardRoom.init bid aid)
      (by norm_num [BoardRoom.init]) (by norm_num [BoardRoom.init])

/-- Counterexample to C1 as stated: adding the same stroke id twice
(`self.strokes[stroke.id] = stroke` overwrites) leaves one live entry but
an object count of 2, so after this concrete add/add sequence
`object_count` differs from the number of live entries. -/
theorem object_count_counterexample :
    (applyRoomOps (BoardRoom.init "AAAAAA" "adm")
        [RoomOp.addStroke ⟨"a", "u", "default", "pen", "#000000", 5, [], 0⟩,
         RoomOp.addStroke ⟨"a", "u", "default", "pen", "#000000", 5, [], 0⟩]).object_count ≠
      (live_objects (applyRoomOps (BoardRoom.init "AAAAAA" "adm")
        [RoomOp.addStroke ⟨"a", "u", "default", "pen", "#000000", 5, [], 0⟩,
         RoomOp.addStroke ⟨"a", "u", "default", "pen", "#000000", 5, [], 0⟩]) : ℤ) := by
  decide

/-- Witness for the claim C1 theorem on a concrete fresh add/add/delete
sequence. -/
theorem object_count_invariant_witness :
    (applyRoomOps (BoardRoom.init "AAAAAA" "adm")
        [RoomOp.addStroke ⟨"a", "u", "default", "pen", "#000000", 5, [], 0⟩,
         RoomOp.addShape "b" [],
         RoomOp.deleteObject "a"]).object_count =
      (live_objects (applyRoomOps (BoardRoom.init "AAAAAA" "adm")
        [RoomOp.addStroke ⟨"a", "u", "default", "pen", "#000000", 5, [], 0⟩,
         RoomOp.addShape "b" [],
         RoomOp.deleteObject "a"]) : ℤ) :=
  (object_count_invariant "AAAAAA" "adm"
    [RoomOp.addStroke ⟨"a", "u", "default", "pen", "#000000", 5, [], 0⟩,
     RoomOp.addShape "b" [],
     RoomOp.deleteObject "a"]).1 (by decide)

/-! ## Rate limiter claims -/

/-- The points visible to a `check_rate_limit` call after its lazy window
reset: 0 when the entry is missing or the window has lapsed
(`now > reset_time`), the stored points otherwise. -/
def effective_points (st : Option RateState) (now : ℚ) : ℤ :=
  match st with
  | none => 0
  | some s => if now > s.reset_time then 0 else s.points

/-- The window end visible to a `check_rate_limit` call after its lazy
reset. -/
def effective_reset (st : Option RateState) (now : ℚ) : ℚ :=
  match st with
  | none => now + 60
  | some s => if now > s.reset_time then now + 60 else s.reset_time

lemma rate_step_fst_iff (st : Option RateState) (now : ℚ) (p : ℤ) :
    (rate_step st now p).1 = true ↔ effective_points st now + p ≤ 1000 := by
  cases st with
  | none =>
      simp only [rate_step, effective_points]
      split_ifs with h1 h2 <;> simp_all <;> omega
  | some s =>
      simp only [rate_step, effective_points]
      split_ifs with h1 h2 <;> simp_all <;> omega

lemma rate_step_snd_reject (st : Option RateState) (now : ℚ) (p : ℤ)
    (h : (rate_step st now p).1 = false) :
    (rate_step st now p).2 =
      { points := effective_points st now,
        reset_time := effective_reset st now } := by
  cases st with
  | none =>
      simp only [rate_step, effective_points, effective_reset] at h ⊢
      split_ifs at h ⊢ <;> simp_all
  | some s =>
      simp only [rate_step, effective_points, effective_reset] at h ⊢
      split_ifs at h ⊢ <;> simp_all

lemma rate_step_snd_accept (st : Option RateState) (now : ℚ) (p : ℤ)
    (h : (rate_step st now p).1 = true) :
    (rate_step st now p).2 =
      { points := effective_points st now + p,
        reset_time := effective_reset st now } := by
  cases st with
  | none =>
      simp only [rate_step, effective_points, effective_reset] at h ⊢
      split_ifs at h ⊢ <;> simp_all
  | some s =>
      simp only [rate_step, effective_points, effective_reset] at h ⊢
      split_ifs at h ⊢ <;> simp_all

lemma lookupKey_upsert {α : Type} (k : String) (v : α)
    (l : List (String × α)) : lookupKey k (upsert k v l) = some v := by
  induction l with
  | nil => simp [upsert, lookupKey]
  | cons kv rest ih =>
      obtain ⟨k1, v1⟩ := kv
      by_cases hk : k1 = k
      · simp [upsert, lookupKey, hk]
      · simp [upsert, lookupKey, hk, ih]

/-- C4 (amended): a `check_rate_limit` call accepts exactly when the
points accumulated in the live window (0 after a lapse or on first use)
plus the requested points do not exceed 1000; on acceptance the points
are added; on rejection no points are added, but the call still performs
its lazy window bookkeeping (a missing entry is created and a lapsed
window is reset) before rejecting — rejection is *not* entirely
mutation-free, see the counterexample; consuming exactly 1000 points in a
fresh window succeeds, one more point in the same window fails, and any
request of at most 1000 points succeeds again once more than 60 seconds
have passed since the window started. -/
theorem check_rate_limit_amended :
    (∀ (r : BoardRoom) (now : ℚ) (u : String) (p : ℤ),
      (r.check_rate_limit now u p).1 = true ↔
        effective_points (lookupKey u r.user_rates) now + p ≤ 1000) ∧
    (∀ (r : BoardRoom) (now : ℚ) (u : String) (p : ℤ),
      (r.check_rate_limit now u p).1 = false →
        (r.check_rate_limit now u p).2.user_rates =
          upsert u
            { points := effective_points (lookupKey u r.user_rates) now,
              reset_time := effective_reset (lookupKey u r.user_rates) now }
            r.user_rates) ∧
    (∀ (r : BoardRoom) (now : ℚ) (u : String) (p : ℤ),
      (r.check_rate_limit now u p).1 = true →
        (r.check_rate_limit now u p).2.user_rates =
          upsert u
            { points := effective_points (lookupKey u r.user_rates) now + p,
              reset_time := effective_reset (lookupKey u r.user_rates) now }
            r.user_rates) ∧
    (∀ (r : BoardRoom) (now : ℚ) (u : String),
      lookupKey u r.user_rates = none →
        (r.check_rate_limit now u 1000).1 = true ∧
        (∀ t : ℚ, t ≤ now + 60 →
          (((r.check_rate_limit now u 1000).2).check_rate_limit t u 1).1 =
            false) ∧
        (∀ (t : ℚ) (k : ℤ), now + 60 < t → k ≤ 1000 →
          (((r.check_rate_limit now u 1000).2).check_rate_limit t u k).1 =
            true)) := by
  have hfst : ∀ (r : BoardRoom) (now : ℚ) (u : String) (p : ℤ),
      (r.check_rate_limit now u p).1 = (rate_step (lookupKey u r.user_rates) now p).1 :=
    fun r now u p => rfl
  have hsnd : ∀ (r : BoardRoom) (now : ℚ) (u : String) (p : ℤ),
      (r.check_rate_limit now u p).2.user_rates =
        upsert u (rate_step (lookupKey u r.user_rates) now p).2 r.user_rates :=
    fun r now u p => rfl
  refine ⟨?_, ?_, ?_, ?_⟩
  · intro r now u p
    rw [hfst]
    exact rate_step_fst_iff _ _ _
  · intro r now u p h
    rw [hsnd, rate_step_snd_reject _ _ _ (by rw [← hfst]; exact h)]
  · intro r now u p h
    rw [hsnd, rate_step_snd_accept _ _ _ (by rw [← hfst]; exact h)]
  · intro r now u hnone
    have h1 : (r.check_rate_limit now u 1000).1 = true := by
      rw [hfst, rate_step_fst_iff, hnone]
      simp [effective_points]
    have hstate : (r.check_rate_limit now u 1000).2.user_rates =
        upsert u { points := 1000, reset_time := now + 60 } r.user_rates := by
      rw [hsnd, rate_step_snd_accept _ _ _ (by rw [← hfst]; exact h1)]
      rw [hnone]
      simp [effective_points, effective_reset]
    refine ⟨h1, ?_, ?_⟩
    · intro t htle
      rw [hfst, hstate, lookupKey_upsert]
      have hiff := rate_step_fst_iff
        (some { points := 1000, reset_time := now + 60 }) t 1
      simp only [effective_points] at hiff
      rw [if_neg (not_lt.mpr htle)] at hiff
      rw [Bool.eq_false_iff]
      intro hb
      have := hiff.mp hb
      omega
    · intro t k htgt hk
      rw [hfst, hstate, lookupKey_upsert]
      have hiff := rate_step_fst_iff
        (some { points := 1000, reset_time := now + 60 }) t k
      simp only [effective_points] at hiff
      rw [if_pos htgt] at hiff
      exact hiff.mpr (by omega)

/-- Counterexample to C4 as stated ("rejection leaves the rate state
unmutated"): with a stored window `{points = 5, reset_time = 100}`, a
call at `now = 200` requesting 1001 points is rejected, yet the stored
window has been reset to `{points = 0, reset_time = 260}` — the state
changed on a rejected call. -/
theorem check_rate_limit_counterexample :
    (BoardRoom.check_rate_limit
        { BoardRoom.init "AAAAAA" "adm" with
          user_rates := [("u", { points := 5, reset_time := 100 })] }
        200 "u" 1001).1 = false ∧
    (BoardRoom.check_rate_limit
        { BoardRoom.init "AAAAAA" "adm" with
          user_rates := [("u", { points := 5, reset_time := 100 })] }
        200 "u" 1001).2 ≠
      { BoardRoom.init "AAAAAA" "adm" with
        user_rates := [("u", { points := 5, reset_time := 100 })] } := by
  constructor
  · decide
  · decide

/-- Witness for the claim C4 theorem: from an empty rate table, consuming
1000 points at time 0 succeeds, one more point at time 30 fails, and 5
points at time 61 succeed again. -/
theorem check_rate_limit_amended_witness :
    ((BoardRoom.init "AAAAAA" "adm").check_rate_limit 0 "u" 1000).1 = true ∧
    ((((BoardRoom.init "AAAAAA" "adm").check_rate_limit 0 "u" 1000).2).check_rate_limit
        30 "u" 1).1 = false ∧
    ((((BoardRoom.init "AAAAAA" "adm").check_rate_limit 0 "u" 1000).2).check_rate_limit
        61 "u" 5).1 = true := by
  have h := check_rate_limit_amended.2.2.2 (BoardRoom.init "AAAAAA" "adm")
    0 "u" (by rfl)
  exact ⟨h.1, h.2.1 30 (by norm_num), h.2.2 61 5 (by norm_num) (by norm_num)⟩

/-! ## Database model (`backend/app/database/models.py`, `service.py`)

Each table is a list of rows in insertion order; `query(...).first()` is
`List.find?` and `db.add` appends.  Surrogate integer primary keys,
`created_at` timestamps and the client-metadata columns (`ip_address`,
`user_agent`, `websocket_id`, cursor positions) are omitted: no service
logic under verification reads them.  `secrets.token_urlsafe` is treated
as an oracle: freshly generated strings are passed in as arguments.  A
service call that returns without `db.commit()` leaves the database
unchanged (the session is closed and pending changes are discarded). -/

/-- A `boards` row. -/
structure BoardRow where
  board_id : String
  admin_id : String
  max_users : ℕ := 10
  max_objects : ℤ := 5000
  is_active : Bool := true
  object_count : ℤ := 0
  last_activity : ℚ := 0
deriving DecidableEq

/-- A `users` row. -/
structure UserRow where
  user_id : String
  board_id : String
  nickname : String
  role : String := "user"
  connected : Bool := true
deriving DecidableEq

/-- A `strokes` row. -/
structure StrokeRow where
  stroke_id : String
  board_id : String
  user_id : String
  layer_id : String
  brush_type : String
  color : String
  width : ℚ
deriving DecidableEq

/-- A `stroke_points` row. -/
structure StrokePointRow where
  stroke_id : String
  x : ℚ
  y : ℚ
  pressure : ℚ
  timestamp : ℚ
  point_order : ℕ
deriving DecidableEq

/-- A point dict handed to `add_stroke_points` (defaults already
resolved). -/
structure PointInput where
  x : ℚ
  y : ℚ
  pressure : ℚ := 1 / 2
  timestamp : ℚ := 0
deriving DecidableEq

/-- A `shapes` row. -/
structure ShapeRow where
  shape_id : String
  board_id : String
  user_id : String
  layer_id : String
  type : String
  start_x : ℚ
  start_y : ℚ
  end_x : ℚ
  end_y : ℚ
  color : String
  stroke_width : ℚ
deriving DecidableEq

/-- A `text_objects` row. -/
structure TextRow where
  text_id : String
  board_id : String
  user_id : String
  layer_id : String
  text : String
  x : ℚ
  y : ℚ
  color : String
  font_size : ℚ := 16
  font_family : String := "Arial"
deriving DecidableEq

/-- A `user_tokens` row. -/
structure UserTokenRow where
  user_id : String
  board_id : String
  token : String
  expires_at : Option ℚ := none
  is_revoked : Bool := false
deriving DecidableEq

/-- A `rate_limits` row. -/
structure RateLimitRow where
  user_id : String
  board_id : String
  action_type : String
  points : ℤ
  window_start : ℚ
deriving DecidableEq

/-- An `admin_timers` row. -/
structure AdminTimerRow where
  board_id : String
  admin_disconnected_at : ℚ
  scheduled_shutdown_at : ℚ
  is_active : Bool := true
deriving DecidableEq

/-- An `active_connections` row. -/
structure ActiveConnectionRow where
  board_id : String
  user_id : String
  last_heartbeat : ℚ := 0
deriving DecidableEq

/-- A `connection_states` row. -/
structure ConnectionStateRow where
  user_id : String
  board_id : String
  cursor_x : ℚ := 0
  cursor_y : ℚ := 0
  active_tool : String := "pen"
  last_activity : ℚ := 0
deriving DecidableEq

/-- The database (layers, banned-token and timeout tables are omitted:
no claim-relevant service path reads them). -/
structure Db where
  boards : List BoardRow
  users : List UserRow
  strokes : List StrokeRow
  stroke_points : List StrokePointRow
  shapes : List ShapeRow
  texts : List TextRow
  user_tokens : List UserTokenRow
  rate_limits : List RateLimitRow
  admin_timers : List AdminTimerRow
  active_connections : List ActiveConnectionRow
  connection_states : List ConnectionStateRow
deriving DecidableEq

/-- The empty database. -/
def Db.empty : Db where
  boards := []
  users := []
  strokes := []
  stroke_points := []
  shapes := []
  texts := []
  user_tokens := []
  rate_limits := []
  admin_timers := []
  active_connections := []
  connection_states := []

/-- Update the first row satisfying `p` with `f` (an ORM mutation of the
object returned by `query(...).first()`). -/
def updateFirst {α : Type} (p : α → Bool) (f : α → α) : List α → List α
  | [] => []
  | a :: rest => if p a then f a :: rest else a :: updateFirst p f rest

/-- `DatabaseService.get_board`: the first active board with this id. -/
def get_board (db : Db) (board_id : String) : Option BoardRow :=
  db.boards.find? fun b => b.board_id == board_id && b.is_active

/-- `DatabaseService.add_user`. -/
def db_add_user (db : Db) (user_id board_id nickname role : String) : Db :=
  { db with
      users := db.users ++
      [{ user_id := user_id, board_id := board_id, nickname := nickname,
         role := role, connected := true }] }

/-- `DatabaseService.disconnect_user`. -/
def disconnect_user (db : Db) (user_id board_id : String) : Db :=
  { db with
      users := updateFirst
        (fun u => u.user_id == user_id && u.board_id == board_id)
        (fun u => { u with connected := false }) db.users }

/-- `DatabaseService.add_stroke_points`: count the existing points of the
stroke id, then insert each new point with `point_order` continuing from
that count.  There is no existence check on the stroke id. -/
def add_stroke_points (db : Db) (stroke_id : String)
    (points : List PointInput) : Db :=
  let existing_count :=
    (db.stroke_points.filter fun r => r.stroke_id == stroke_id).length
  { db with
      stroke_points := db.stroke_points ++
      points.enum.map fun ip =>
        { stroke_id := stroke_id, x := ip.2.x, y := ip.2.y,
          pressure := ip.2.pressure, timestamp := ip.2.timestamp,
          point_order := existing_count + ip.1 } }

/-- `DatabaseService.create_user_token` (the generated
`secrets.token_urlsafe(32)` string and the resolved `expires_at` are
passed in). -/
def create_user_token (db : Db) (user_id board_id token : String)
    (expires_at : Option ℚ) : Db :=
  { db with
      user_tokens := db.user_tokens ++
      [{ user_id := user_id, board_id := board_id, token := token,
         expires_at := expires_at, is_revoked := false }] }

/-- `DatabaseService.validate_user_token`: the first not-revoked row with
this token and board; `none` when absent or when `expires_at` is set and
past. -/
def validate_user_token (db : Db) (token board_id : String) (now : ℚ) :
    Option String :=
  match db.user_tokens.find? (fun r =>
      r.token == token && r.board_id == board_id && !r.is_revoked) with
  | none => none
  | some r =>
      match r.expires_at with
      | some e => if e < now then none else some r.user_id
      | none => some r.user_id

/-- `DatabaseService.revoke_user_token`: mark the first row with this
token (any board) revoked. -/
def revoke_user_token (db : Db) (token : String) : Db :=
  { db with
      user_tokens := updateFirst (fun r => r.token == token)
        (fun r => { r with is_revoked := true }) db.user_tokens }

/-- `DatabaseService.add_active_connection`: remove any existing
connection for this `(board, user)`, then insert the new one. -/
def add_active_connection (db : Db) (board_id user_id : String) (now : ℚ) :
    Db :=
  { db with
      active_connections :=
        (db.active_connections.filter fun c =>
          !(c.board_id == board_id && c.user_id == user_id)) ++
        [{ board_id := board_id, user_id := user_id, last_heartbeat := now }] }

/-- `DatabaseService.update_connection_heartbeat`. -/
def update_connection_heartbeat (db : Db) (board_id user_id : String)
    (now : ℚ) : Db :=
  { db with
      active_connections := updateFirst
        (fun c => c.board_id == board_id && c.user_id == user_id)
        (fun c => { c with last_heartbeat := now }) db.active_connections }

/-- `DatabaseService.remove_active_connection`. -/
def remove_active_connection (db : Db) (board_id user_id : String) : Db :=
  { db with
      active_connections := db.active_connections.filter fun c =>
        !(c.board_id == board_id && c.user_id == user_id) }

/-- `DatabaseService.get_active_users`. -/
def get_active_users (db : Db) (board_id : String) : List String :=
  (db.active_connections.filter fun c => c.board_id == board_id).map
    (·.user_id)

/-- `DatabaseService.update_connection_state` as called with no cursor
arguments (`join_board`, `create_board`): create the row with defaults
when missing, otherwise only touch `last_activity`. -/
def update_connection_state_default (db : Db) (board_id user_id : String)
    (now : ℚ) : Db :=
  match db.connection_states.find? (fun s =>
      s.board_id == board_id && s.user_id == user_id) with
  | none =>
      { db with
          connection_states := db.connection_states ++
            [{ user_id := user_id, board_id := board_id, cursor_x := 0,
               cursor_y := 0, active_tool := "pen", last_activity := 0 }] }
  | some _ =>
      { db with
          connection_states := updateFirst
            (fun s => s.board_id == board_id && s.user_id == user_id)
            (fun s => { s with last_activity := now }) db.connection_states }

/-- `DatabaseService.update_connection_state` with cursor data
(`cursor_update` events). -/
def update_connection_state (db : Db) (board_id user_id : String)
    (x y : ℚ) (tool : String) (now : ℚ) : Db :=
  match db.connection_states.find? (fun s =>
      s.board_id == board_id && s.user_id == user_id) with
  | none =>
      { db with
          connection_states := db.connection_states ++
            [{ user_id := user_id, board_id := board_id, cursor_x := x,
               cursor_y := y, active_tool := tool, last_activity := 0 }] }
  | some _ =>
      { db with
          connection_states := updateFirst
            (fun s => s.board_id == board_id && s.user_id == user_id)
            (fun s => { s with
              cursor_x := x, cursor_y := y,
              active_tool := tool, last_activity := now }) db.connection_states }

/-- `DatabaseService.update_board_activity`. -/
def update_board_activity (db : Db) (board_id : String) (now : ℚ) : Db :=
  { db with
      boards := updateFirst
        (fun b => b.board_id == board_id && b.is_active)
        (fun b => { b with last_activity := now }) db.boards }

/-- `DatabaseService.deactivate_board`. -/
def deactivate_board (db : Db) (board_id : String) : Db :=
  { db with
      boards := updateFirst
        (fun b => b.board_id == board_id && b.is_active)
        (fun b => { b with is_active := false }) db.boards }

/-- `DatabaseService.increment_object_count`. -/
def increment_object_count (db : Db) (board_id : String) : Db :=
  { db with
      boards := updateFirst
        (fun b => b.board_id == board_id && b.is_active)
        (fun b => { b with object_count := b.object_count + 1 }) db.boards }

/-- `DatabaseService.check_rate_limit` (the persisted effect: the pending
row creation and reset are committed only on acceptance; a rejected call
returns with the session's uncommitted changes discarded). -/
def db_check_rate_limit (db : Db) (user_id board_id action_type : String)
    (points : ℤ) (now : ℚ) : Bool × Db :=
  let existing := db.rate_limits.find? fun r =>
    r.user_id == user_id && r.board_id == board_id &&
      r.action_type == action_type
  let st : RateLimitRow := match existing with
    | none =>
        { user_id := user_id, board_id := board_id,
          action_type := action_type, points := 0, window_start := now }
    | some r => r
  let st1 := if 60 < now - st.window_start then
      { st with points := 0, window_start := now }
    else
      st
  if 1000 < st1.points + points then (false, db)
  else
    let st2 := { st1 with points := st1.points + points }
    match existing with
    | none => (true, { db with rate_limits := db.rate_limits ++ [st2] })
    | some _ =>
        (true, { db with
          rate_limits := updateFirst
            (fun r => r.user_id == user_id && r.board_id == board_id &&
              r.action_type == action_type)
            (fun _ => st2) db.rate_limits })

/-- `DatabaseService.create_admin_timer`: update the board's timer row in
place when one exists, insert it otherwise; either way the timer ends up
active with `scheduled_shutdown_at = now + 600`. -/
def create_admin_timer (db : Db) (board_id : String) (now : ℚ) : Db :=
  match db.admin_timers.find? (fun t => t.board_id == board_id) with
  | some _ =>
      { db with
          admin_timers := updateFirst (fun t => t.board_id == board_id)
            (fun t => { t with
              admin_disconnected_at := now,
              scheduled_shutdown_at := now + 600, is_active := true })
            db.admin_timers }
  | none =>
      { db with
          admin_timers := db.admin_timers ++
            [{ board_id := board_id, admin_disconnected_at := now,
               scheduled_shutdown_at := now + 600, is_active := true }] }

/-- `DatabaseService.cancel_admin_timer`: deactivate the board's first
active timer row. -/
def cancel_admin_timer (db : Db) (board_id : String) : Db :=
  { db with
      admin_timers := updateFirst
        (fun t => t.board_id == board_id && t.is_active)
        (fun t => { t with is_active := false }) db.admin_timers }

/-- `DatabaseService.get_expired_admin_timers`. -/
def get_expired_admin_timers (db : Db) (now : ℚ) : List AdminTimerRow :=
  db.admin_timers.filter fun t =>
    t.is_active && decide (t.scheduled_shutdown_at ≤ now)

/-! ## WebSocket layer (`backend/app/ws/websocket_manager.py`,
`backend/app/ws/connection_manager.py`, `backend/main.py`) -/

/-- Result of `WebSocketManager.join_board`: `None` (board missing or
inactive), the `{"error": "full"}` dict, or the success payload (the
board-state snapshot is not reproduced). -/
inductive JoinResult where
  | notFound
  | full
  | ok (user_id token nickname role : String)
deriving DecidableEq

/-- `WebSocketManager.join_board`.  `new_user_id` and `new_token` stand
for the `secrets.token_urlsafe(16)` / `(32)` strings generated on the
new-user path.  With a token that validates, the user is treated as
rejoining: the user record (when present) supplies nickname and role and
is marked connected, and **no capacity check is made**; otherwise the
board is rejected as `full` when the connected users already reach
`max_users`, else a fresh user is created.  A validated admin rejoin
cancels the admin timer. -/
def join_board (db : Db) (board_id : String) (user_token : Option String)
    (new_user_id new_token : String) (now : ℚ) : JoinResult × Db :=
  match get_board db board_id with
  | none => (JoinResult.notFound, db)
  | some board =>
      let validated := match user_token with
        | none => none
        | some tok => validate_user_token db tok board_id now
      match validated with
      | some uid =>
          let urec := db.users.find? fun u =>
            u.user_id == uid && u.board_id == board_id
          let db1 := { db with
            users := updateFirst
              (fun u => u.user_id == uid && u.board_id == board_id)
              (fun u => { u with connected := true }) db.users }
          let nickname := (urec.map (·.nickname)).getD ""
          let role := (urec.map (·.role)).getD "user"
          let db2 := add_active_connection db1 board_id uid now
          let db3 := update_connection_state_default db2 board_id uid now
          let db4 := if uid == board.admin_id then
              cancel_admin_timer db3 board_id
            else db3
          (JoinResult.ok uid ((user_token).getD "") nickname role, db4)
      | none =>
          let connected_users := db.users.filter fun u =>
            u.board_id == board_id && u.connected
          if board.max_users ≤ connected_users.length then
            (JoinResult.full, db)
          else
            let nickname := "User" ++ toString (connected_users.length + 1)
            let db1 := db_add_user db new_user_id board_id nickname "user"
            let db2 := create_user_token db1 new_user_id board_id new_token none
            let db3 := add_active_connection db2 board_id new_user_id now
            let db4 := update_connection_state_default db3 board_id new_user_id now
            let db5 := if new_user_id == board.admin_id then
                cancel_admin_timer db4 board_id
              else db4
            (JoinResult.ok new_user_id new_token nickname "user", db5)

/-- `WebSocketManager.disconnect`: mark the user disconnected, drop the
active connection, and when the user is the board's admin create (or
reschedule) the admin timer. -/
def ws_disconnect (db : Db) (board_id user_id : String) (now : ℚ) : Db :=
  let db1 := disconnect_user db user_id board_id
  let db2 := remove_active_connection db1 board_id user_id
  match get_board db2 board_id with
  | some board =>
      if user_id == board.admin_id then create_admin_timer db2 board_id now
      else db2
  | none => db2

/-- An outbound message produced by the dispatcher (payloads reduced to
the message type; `broadcast` carries the excluded user, if any). -/
inductive OutMsg where
  | toUser (user_id : String) (msg_type : String)
  | broadcast (msg_type : String) (exclude : Option String)
deriving DecidableEq

/-- `WebSocketManager._kick_user`. -/
def kick_user (db : Db) (board_id target_user_id admin_id : String)
    (now : ℚ) : Db × List OutMsg :=
  let db1 := ws_disconnect db board_id target_user_id now
  (db1, [OutMsg.toUser target_user_id "kicked",
    OutMsg.broadcast "user_kicked" none])

/-- `WebSocketManager._ban_user`: revoke every token of the target user
on this board, then kick. -/
def ban_user (db : Db) (board_id target_user_id admin_id : String)
    (now : ℚ) : Db × List OutMsg :=
  let toks := (db.user_tokens.filter fun r =>
    r.user_id == target_user_id && r.board_id == board_id).map (·.token)
  let db1 := toks.foldl (fun d t => revoke_user_token d t) db
  let res := kick_user db1 board_id target_user_id admin_id now
  (res.1, res.2 ++ [OutMsg.broadcast "user_banned" none])

/-- `WebSocketManager._end_session`: notify every active non-admin user,
deactivate the board, clear its active connections. -/
def end_session (db : Db) (board_id admin_id : String) : Db × List OutMsg :=
  let msgs := ((get_active_users db board_id).filter
    fun u => !(u == admin_id)).map fun u => OutMsg.toUser u "session_ended"
  let db1 := deactivate_board db board_id
  let db2 := { db1 with
    active_connections := db1.active_connections.filter fun c =>
      !(c.board_id == board_id) }
  (db2, msgs)

/-- One pass of the `check_admin_timers` background loop (`main.py`): for
every expired active timer, end the session of its board and cancel the
timer. -/
def check_admin_timers_poll (db : Db) (now : ℚ) : Db :=
  (get_expired_admin_timers db now).foldl
    (fun d t => cancel_admin_timer (end_session d t.board_id "system").1
      t.board_id) db

/-- An inbound drawing event (`handle_drawing`'s `data`, with the payload
fields it reads; defaults already resolved). -/
inductive WsEvent where
  | stroke_start (stroke_id layer_id brush_type color : String) (width : ℚ)
  | stroke_points (stroke_id : String) (points : List PointInput)
  | stroke_end (stroke_id : String)
  | shape_create (shape_type : String) (start_x start_y end_x end_y : ℚ)
      (color : String) (stroke_width : ℚ) (layer_id : String)
  | text_create (text : String) (x y : ℚ) (color : String) (font_size : ℚ)
      (font_family layer_id : String)
  | erase_path (points : List Pt)
  | cursor_update (x y : ℚ) (tool : String)
  | admin_kick (target_user_id : String)
  | admin_ban (target_user_id : String)
  | admin_end_session
deriving DecidableEq

/-- `WebSocketManager.handle_drawing`: verify the board, refresh the
heartbeat and board activity, rate-limit `stroke_points` (class `draw`,
weighted by point count) and `cursor_update` (class `cursor`, weight 1),
then dispatch on the event type.  The `if/elif` chain of the source has
**no branch for `erase_path`**, so such an event falls through with no
state change and no broadcast.  `gen_id` stands for the
`f"shape_{...}"` / `f"text_{...}"` id minted for shape/text creation. -/
def handle_drawing (db : Db) (board_id user_id : String) (evt : WsEvent)
    (gen_id : String) (now : ℚ) : Db × List OutMsg :=
  match get_board db board_id with
  | none => (db, [])
  | some board =>
      let db1 := update_board_activity
        (update_connection_heartbeat db board_id user_id now) board_id now
      match evt with
      | .stroke_start sid layer brush color width =>
          if board.max_objects ≤ board.object_count then
            (db1, [OutMsg.toUser user_id "error"])
          else
            let db2 := { db1 with
              strokes := db1.strokes ++
                [{ stroke_id := sid, board_id := board_id,
                   user_id := user_id, layer_id := layer,
                   brush_type := brush, color := color, width := width }] }
            let db3 := increment_object_count db2 board_id
            (db3, [OutMsg.broadcast "stroke_start" (some user_id)])
      | .stroke_points sid pts =>
          let res := db_check_rate_limit db1 user_id board_id "draw"
            pts.length now
          if !res.1 then
            (res.2, [OutMsg.toUser user_id "rate_limit_warning"])
          else
            (add_stroke_points res.2 sid pts,
              [OutMsg.broadcast "stroke_points" (some user_id)])
      | .stroke_end _ =>
          (db1, [OutMsg.broadcast "stroke_end" (some user_id)])
      | .shape_create ty sx sy ex ey color sw layer =>
          if board.max_objects ≤ board.object_count then
            (db1, [OutMsg.toUser user_id "error"])
          else
            let db2 := { db1 with
              shapes := db1.shapes ++
                [{ shape_id := gen_id, board_id := board_id,
                   user_id := user_id, layer_id := layer, type := ty,
                   start_x := sx, start_y := sy, end_x := ex, end_y := ey,
                   color := color, stroke_width := sw }] }
            let db3 := increment_object_count db2 board_id
            (db3, [OutMsg.broadcast "shape_create" none])
      | .text_create txt x y color fs ff layer =>
          if board.max_objects ≤ board.object_count then
            (db1, [OutMsg.toUser user_id "error"])
          else
            let db2 := { db1 with
              texts := db1.texts ++
                [{ text_id := gen_id, board_id := board_id,
                   user_id := user_id, layer_id := layer, text := txt,
                   x := x, y := y, color := color, font_size := fs,
                   font_family := ff }] }
            let db3 := increment_object_count db2 board_id
            (db3, [OutMsg.broadcast "text_create" none])
      | .erase_path _ => (db1, [])
      | .cursor_update x y tool =>
          let res := db_check_rate_limit db1 user_id board_id "cursor" 1 now
          if !res.1 then (res.2, [])
          else
            (update_connection_state res.2 board_id user_id x y tool now,
              [OutMsg.broadcast "cursor_update" (some user_id)])
      | .admin_kick target =>
          match db1.users.find? (fun u => u.user_id == user_id &&
              u.board_id == board_id && u.role == "admin") with
          | some _ => kick_user db1 board_id target user_id now
          | none => (db1, [])
      | .admin_ban target =>
          match db1.users.find? (fun u => u.user_id == user_id &&
              u.board_id == board_id && u.role == "admin") with
          | some _ => ban_user db1 board_id target user_id now
          | none => (db1, [])
      | .admin_end_session =>
          match db1.users.find? (fun u => u.user_id == user_id &&
              u.board_id == board_id && u.role == "admin") with
          | some _ => end_session db1 board_id user_id
          | none => (db1, [])

/-! ## Connection manager broadcast (`connection_manager.py`) -/

/-- The send loop of `ConnectionManager.broadcast_to_board` over the
board's registry entries: skip the excluded user, attempt a send to
everyone else (`sendOk u = false` models `websocket.send_json` raising),
collecting the attempted peers and the failed ones. -/
def broadcast_attempts (sendOk : String → Bool) (exclude_user : Option String) :
    List String → List String × List String
  | [] => ([], [])
  | u :: rest =>
      if some u == exclude_user then broadcast_attempts sendOk exclude_user rest
      else
        let res := broadcast_attempts sendOk exclude_user rest
        (u :: res.1, if sendOk u then res.2 else u :: res.2)

/-- The cleanup loop: `await self.disconnect(board_id, user_id)` for each
failed peer removes that registry key. -/
def remove_users (conns : List String) (disconnected : List String) :
    List String :=
  disconnected.foldl (fun c u => c.erase u) conns

/-- `ConnectionManager.broadcast_to_board` restricted to one board's
registry: returns the peers a send was attempted to (in registry order)
and the registry after failed peers are disconnected. -/
def broadcast_to_board (conns : List String) (exclude_user : Option String)
    (sendOk : String → Bool) : List String × List String :=
  let res := broadcast_attempts sendOk exclude_user conns
  (res.1, remove_users conns res.2)

/-! ## Claim theorems: stroke point appends, erase dispatch, broadcast -/

/-- The point rows of one stroke, in insertion order. -/
def points_of (db : Db) (stroke_id : String) : List StrokePointRow :=
  db.stroke_points.filter fun r => r.stroke_id == stroke_id

/-- C7 (amended): `add_stroke_points` appends the given points, in their
given order, to the stroke's point list, with `point_order` continuing
from the previous count, and leaves every other stroke's points
unchanged — but it does this for **any** stroke id, known or not: there
is no existence check, so an unknown id silently gains orphan point rows
instead of the call being a no-op (see the counterexample). -/
theorem add_stroke_points_appends (db : Db) (stroke_id : String)
    (pts : List PointInput) :
    (points_of (add_stroke_points db stroke_id pts) stroke_id =
      points_of db stroke_id ++ pts.enum.map (fun ip =>
        { stroke_id := stroke_id, x := ip.2.x, y := ip.2.y,
          pressure := ip.2.pressure, timestamp := ip.2.timestamp,
          point_order := (points_of db stroke_id).length + ip.1 })) ∧
    (∀ sid2 : String, sid2 ≠ stroke_id →
      points_of (add_stroke_points db stroke_id pts) sid2 =
        points_of db sid2) := by
  constructor
  · simp only [points_of, add_stroke_points, List.filter_append]
    congr 1
    rw [List.filter_eq_self]
    intro a ha
    obtain ⟨ip, _, rfl⟩ := List.mem_map.mp ha
    simp
  · intro sid2 hne
    simp only [points_of, add_stroke_points, List.filter_append]
    have hnil : (pts.enum.map (fun ip =>
        ({ stroke_id := stroke_id, x := ip.2.x, y := ip.2.y,
           pressure := ip.2.pressure, timestamp := ip.2.timestamp,
           point_order := (db.stroke_points.filter
             (fun r => r.stroke_id == stroke_id)).length + ip.1 } :
          StrokePointRow))).filter (fun r => r.stroke_id == sid2) = [] := by
      rw [List.filter_eq_nil_iff]
      intro a ha
      obtain ⟨ip, _, rfl⟩ := List.mem_map.mp ha
      simp [Ne.symm hne]
    rw [hnil, List.append_nil]

/-- Counterexample to C7 as stated: on a database with no strokes at all,
`add_stroke_points` for the unknown id `"ghost"` is *not* a no-op — it
inserts an orphan point row. -/
theorem add_stroke_points_counterexample :
    Db.empty.strokes.find? (fun s => s.stroke_id == "ghost") = none ∧
    (add_stroke_points Db.empty "ghost" [{ x := 1, y := 2 }]).stroke_points ≠
      Db.empty.stroke_points := by
  exact ⟨rfl, by decide⟩

/-- Witness for the claim C7 theorem at a concrete input. -/
theorem add_stroke_points_appends_witness :
    points_of (add_stroke_points Db.empty "s1" [{ x := 1, y := 2 }]) "s2" =
      points_of Db.empty "s2" :=
  (add_stroke_points_appends Db.empty "s1" [{ x := 1, y := 2 }]).2 "s2"
    (by decide)

/-- C6 (amended): the dispatcher ignores `erase_path` events entirely:
`handle_drawing` on such an event leaves every drawable object (strokes,
their points, shapes, texts) and every token unchanged and emits no
outbound message — no `object_delete` is broadcast.  (The
`EraserEngine` exists in `shapes.py` but is never invoked by
`handle_drawing`.) -/
theorem handle_drawing_erase_path_ignored (db : Db)
    (board_id user_id gen_id : String) (pts : List Pt) (now : ℚ) :
    (handle_drawing db board_id user_id (WsEvent.erase_path pts)
        gen_id now).1.strokes = db.strokes ∧
    (handle_drawing db board_id user_id (WsEvent.erase_path pts)
        gen_id now).1.stroke_points = db.stroke_points ∧
    (handle_drawing db board_id user_id (WsEvent.erase_path pts)
        gen_id now).1.shapes = db.shapes ∧
    (handle_drawing db board_id user_id (WsEvent.erase_path pts)
        gen_id now).1.texts = db.texts ∧
    (handle_drawing db board_id user_id (WsEvent.erase_path pts)
        gen_id now).2 = [] := by
  unfold handle_drawing
  cases hb : get_board db board_id with
  | none => exact ⟨rfl, rfl, rfl, rfl, rfl⟩
  | some board =>
      simp [update_board_activity, update_connection_heartbeat]

/-- Counterexample to C6 as stated: a board holding a stroke with a point
at `(10, 10)` receives an `erase_path` event with eraser point
`(12, 10)`; the hit condition of the spec holds
(`should_cut 20 [(12,10)] (10,10) = true`, distance 2 ≤ 20), yet the
dispatcher deletes nothing and broadcasts nothing. -/
theorem handle_drawing_erase_path_counterexample :
    should_cut 20 [⟨12, 10⟩] ⟨10, 10⟩ = true ∧
    (handle_drawing
        { Db.empty with
          boards := [{ board_id := "BRDAAA", admin_id := "adm" }],
          strokes :=
            [{ stroke_id := "s1", board_id := "BRDAAA",
               user_id := "u1", layer_id := "default", brush_type := "pen",
               color := "#000000", width := 5 }],
          stroke_points :=
            [{ stroke_id := "s1", x := 10, y := 10,
               pressure := 1/2, timestamp := 0, point_order := 0 }] }
        "BRDAAA" "u1" (WsEvent.erase_path [⟨12, 10⟩]) "g1" 5).1.strokes =
      [{ stroke_id := "s1", board_id := "BRDAAA",
         user_id := "u1", layer_id := "default", brush_type := "pen",
         color := "#000000", width := 5 }] ∧
    (handle_drawing
        { Db.empty with
          boards := [{ board_id := "BRDAAA", admin_id := "adm" }],
          strokes :=
            [{ stroke_id := "s1", board_id := "BRDAAA",
               user_id := "u1", layer_id := "default", brush_type := "pen",
               color := "#000000", width := 5 }],
          stroke_points :=
            [{ stroke_id := "s1", x := 10, y := 10,
               pressure := 1/2, timestamp := 0, point_order := 0 }] }
        "BRDAAA" "u1" (WsEvent.erase_path [⟨12, 10⟩]) "g1" 5).2 = [] := by
  refine ⟨?_, by decide, by decide⟩
  have : dist_sq (10 : ℚ) 10 12 10 ≤ 20 ^ 2 := by
    unfold dist_sq; norm_num
  simp [should_cut, this]

lemma broadcast_attempts_fst (sendOk : String → Bool)
    (exclude_user : Option String) (conns : List String) :
    (broadcast_attempts sendOk exclude_user conns).1 =
      conns.filter fun u => !(some u == exclude_user) := by
  induction conns with
  | nil => rfl
  | cons u rest ih =>
      simp only [broadcast_attempts, List.filter_cons]
      by_cases h : (some u == exclude_user) = true
      · simp [h, ih]
      · simp only [Bool.not_eq_true] at h
        simp [h, ih]

lemma broadcast_attempts_snd (sendOk : String → Bool)
    (exclude_user : Option String) (conns : List String) :
    (broadcast_attempts sendOk exclude_user conns).2 =
      conns.filter fun u => !(some u == exclude_user) && !sendOk u := by
  induction conns with
  | nil => rfl
  | cons u rest ih =>
      simp only [broadcast_attempts, List.filter_cons]
      by_cases h : (some u == exclude_user) = true
      · simp [h, ih]
      · simp only [Bool.not_eq_true] at h
        by_cases hs : sendOk u = true
        · simp [h, hs, ih]
        · simp only [Bool.not_eq_true] at hs
          simp [h, hs, ih]

lemma remove_users_cons_not_mem (u : String) (conns disconnected : List String)
    (h : u ∉ disconnected) :
    remove_users (u :: conns) disconnected = u :: remove_users conns disconnected := by
  induction disconnected generalizing conns with
  | nil => rfl
  | cons d ds ih =>
      simp only [List.mem_cons, not_or] at h
      have hdu : (u == d) = false := by
        simp [beq_eq_false_iff_ne, h.1]
      simp only [remove_users, List.foldl_cons, List.erase_cons, hdu]
      rw [if_neg Bool.false_ne_true]
      simpa [remove_users] using ih (conns.erase d) h.2

lemma remove_users_filter (q : String → Bool) (conns : List String)
    (h : conns.Nodup) :
    remove_users conns (conns.filter q) = conns.filter fun u => !q u := by
  induction conns with
  | nil => rfl
  | cons u rest ih =>
      obtain ⟨hu, hrest⟩ := List.nodup_cons.mp h
      by_cases hq : q u = true
      · simp only [List.filter_cons, hq, if_pos]
        have hstep : remove_users (u :: rest) (u :: rest.filter q) =
            remove_users rest (rest.filter q) := by
          simp [remove_users, List.erase_cons]
        rw [hstep, ih hrest]
        simp [hq]
      · simp only [Bool.not_eq_true] at hq
        simp only [List.filter_cons, hq, Bool.false_eq_true, if_false]
        rw [remove_users_cons_not_mem u rest (rest.filter q)
          (fun hm => hu (List.mem_of_mem_filter hm))]
        rw [ih hrest]
        simp [hq]

/-- C8: a `broadcast_to_board` call attempts the send to every peer of
the board registry except the excluded user — a failing send on one peer
never prevents the attempt on the remaining peers — and afterwards the
registry holds exactly the excluded user plus the peers whose send
succeeded: every failing peer has been removed (implicit disconnect). -/
theorem broadcast_to_board_spec (conns : List String)
    (exclude_user : Option String) (sendOk : String → Bool)
    (h : conns.Nodup) :
    (broadcast_to_board conns exclude_user sendOk).1 =
      conns.filter (fun u => !(some u == exclude_user)) ∧
    (broadcast_to_board conns exclude_user sendOk).2 =
      conns.filter (fun u => (some u == exclude_user) || sendOk u) := by
  constructor
  · exact broadcast_attempts_fst sendOk exclude_user conns
  · show remove_users conns (broadcast_attempts sendOk exclude_user conns).2 = _
    rw [broadcast_attempts_snd, remove_users_filter _ _ h]
    have hfun : (fun u => !(!(some u == exclude_user) && !sendOk u)) =
        (fun u => (some u == exclude_user) || sendOk u) := by
      funext u
      cases hbe : (some u == exclude_user) <;> cases hs : sendOk u <;> rfl
    rw [hfun]

/-- Witness for the claim C8 theorem: registry `["a", "b", "c"]`,
excluded user `"b"`, and a transport where only the send to `"a"`
succeeds. -/
theorem broadcast_to_board_spec_witness :
    (broadcast_to_board ["a", "b", "c"] (some "b") (fun u => u == "a")).1 =
      ["a", "b", "c"].filter (fun u => !(some u == some "b")) ∧
    (broadcast_to_board ["a", "b", "c"] (some "b") (fun u => u == "a")).2 =
      ["a", "b", "c"].filter (fun u => (some u == some "b") || (u == "a")) :=
  broadcast_to_board_spec ["a", "b", "c"] (some "b") (fun u => u == "a")
    (by decide)

/-! ## Join capacity claims -/

/-- C2 (amended): a join attempt that does not present a valid token
(no token, or a token that fails validation) is rejected with the `full`
outcome and leaves the database untouched whenever the board's connected
users already reach `max_users`; and `BoardRoom.add_user` likewise
rejects when the room holds `max_users` users.  A join presenting a
*valid* token, however, is treated as a reconnect and bypasses the
capacity check entirely (see the counterexample). -/
theorem join_board_full_rejects :
    (∀ (db : Db) (board_id : String) (user_token : Option String)
        (new_user_id new_token : String) (now : ℚ) (board : BoardRow),
      get_board db board_id = some board →
      (∀ t, user_token = some t →
        validate_user_token db t board_id now = none) →
      board.max_users ≤ (db.users.filter fun u =>
        u.board_id == board_id && u.connected).length →
      join_board db board_id user_token new_user_id new_token now =
        (JoinResult.full, db)) ∧
    (∀ (r : BoardRoom) (now : ℚ) (user_id nickname : String)
        (role : UserRole),
      r.max_users ≤ r.users.length →
      r.add_user now user_id nickname role = (false, r)) := by
  constructor
  · intro db board_id user_token new_user_id new_token now board hb hv hfull
    cases user_token with
    | none =>
        simp only [join_board, hb]
        rw [if_pos hfull]
    | some t =>
        have hv2 := hv t rfl
        simp only [join_board, hb, hv2]
        rw [if_pos hfull]
  · intro r now user_id nickname role hfull
    simp only [BoardRoom.add_user]
    rw [if_pos hfull]

/-- Counterexample to C2 as stated: a board with `max_users = 2` and two
connected users is full, yet a join presenting the valid token of a
third (disconnected) user does **not** fail with `full` — it reconnects
that user, raising the connected count to 3 > `max_users`. -/
theorem join_board_counterexample :
    ((get_board
        { Db.empty with
          boards := [{ board_id := "BRDAAA", admin_id := "adm",
                       max_users := 2 }],
          users :=
            [{ user_id := "u1", board_id := "BRDAAA", nickname := "User1" },
             { user_id := "u2", board_id := "BRDAAA", nickname := "User2" },
             { user_id := "r", board_id := "BRDAAA", nickname := "User3",
               connected := false }],
          user_tokens :=
            [{ user_id := "r", board_id := "BRDAAA", token := "tk" }] }
        "BRDAAA").map fun b => b.max_users) = some 2 ∧
    (({ Db.empty with
        boards := [{ board_id := "BRDAAA", admin_id := "adm",
                     max_users := 2 }],
        users :=
          [{ user_id := "u1", board_id := "BRDAAA", nickname := "User1" },
           { user_id := "u2", board_id := "BRDAAA", nickname := "User2" },
           { user_id := "r", board_id := "BRDAAA", nickname := "User3",
             connected := false }],
        user_tokens :=
          [{ user_id := "r", board_id := "BRDAAA", token := "tk" }] } :
        Db).users.filter fun u =>
          u.board_id == "BRDAAA" && u.connected).length = 2 ∧
    (join_board
        { Db.empty with
          boards := [{ board_id := "BRDAAA", admin_id := "adm",
                       max_users := 2 }],
          users :=
            [{ user_id := "u1", board_id := "BRDAAA", nickname := "User1" },
             { user_id := "u2", board_id := "BRDAAA", nickname := "User2" },
             { user_id := "r", board_id := "BRDAAA", nickname := "User3",
               connected := false }],
          user_tokens :=
            [{ user_id := "r", board_id := "BRDAAA", token := "tk" }] }
        "BRDAAA" (some "tk") "nid" "ntk" 0).1 ≠ JoinResult.full ∧
    ((join_board
        { Db.empty with
          boards := [{ board_id := "BRDAAA", admin_id := "adm",
                       max_users := 2 }],
          users :=
            [{ user_id := "u1", board_id := "BRDAAA", nickname := "User1" },
             { user_id := "u2", board_id := "BRDAAA", nickname := "User2" },
             { user_id := "r", board_id := "BRDAAA", nickname := "User3",
               connected := false }],
          user_tokens :=
            [{ user_id := "r", board_id := "BRDAAA", token := "tk" }] }
        "BRDAAA" (some "tk") "nid" "ntk" 0).2.users.filter fun u =>
          u.board_id == "BRDAAA" && u.connected).length = 3 := by
  refine ⟨by decide, by decide, by decide, by decide⟩

/-- Witness for the claim C2 theorem: a 1-user board with its single slot
taken rejects a tokenless join with `full`, and a full `BoardRoom`
rejects `add_user`. -/
theorem join_board_full_rejects_witness :
    join_board
        { Db.empty with
          boards := [{ board_id := "BRDAAA", admin_id := "adm",
                       max_users := 1 }],
          users :=
            [{ user_id := "u1", board_id := "BRDAAA", nickname := "User1" }] }
        "BRDAAA" none "nid" "ntk" 0 =
      (JoinResult.full,
        { Db.empty with
          boards := [{ board_id := "BRDAAA", admin_id := "adm",
                       max_users := 1 }],
          users :=
            [{ user_id := "u1", board_id := "BRDAAA", nickname := "User1" }] }) ∧
    BoardRoom.add_user
        { BoardRoom.init "BRDAAA" "adm" with
          max_users := 1,
          users :=
            [("u1", { id := "u1", nickname := "User1",
                      role := UserRole.user })] } 0 "u2" "User2" UserRole.user =
      (false,
        { BoardRoom.init "BRDAAA" "adm" with
          max_users := 1,
          users :=
            [("u1", { id := "u1", nickname := "User1",
                      role := UserRole.user })] }) :=
  ⟨join_board_full_rejects.1 _ "BRDAAA" none "nid" "ntk" 0
      { board_id := "BRDAAA", admin_id := "adm", max_users := 1 }
      (by decide) (fun t ht => nomatch ht) (by decide),
    join_board_full_rejects.2 _ 0 "u2" "User2" UserRole.user (by decide)⟩

/-! ## Token lifecycle claims -/

/-- A token-store operation (the generated token string is an argument,
standing for the `secrets` oracle). -/
inductive TokenOp where
  | create (user_id board_id token : String) (expires_at : Option ℚ)
  | revoke (token : String)
deriving DecidableEq

/-- Apply one token operation through the service layer. -/
def applyTokenOp (db : Db) : TokenOp → Db
  | .create u b t e => create_user_token db u b t e
  | .revoke t => revoke_user_token db t

/-- Apply a sequence of token operations in order. -/
def applyTokenOps (db : Db) (ops : List TokenOp) : Db :=
  ops.foldl applyTokenOp db

/-- The operation neither creates nor revokes the given token string. -/
def opAvoidsToken (tok : String) : TokenOp → Bool
  | .create _ _ t _ => t != tok
  | .revoke t => t != tok

/-- The operation does not create the given token string (revoking it is
allowed). -/
def opCreateAvoidsToken (tok : String) : TokenOp → Bool
  | .create _ _ t _ => t != tok
  | .revoke _ => true

/-- The rows carrying a given token string. -/
def tokenFilter (db : Db) (tok : String) : List UserTokenRow :=
  db.user_tokens.filter fun r => r.token == tok

/-- Every row carrying the token is revoked. -/
def allRevoked (db : Db) (tok : String) : Prop :=
  ∀ r ∈ db.user_tokens, (r.token == tok) = true → r.is_revoked = true

lemma filter_updateFirst_of_disjoint {α : Type} (p q : α → Bool) (f : α → α)
    (l : List α) (h : ∀ a, p a = true → q a = false ∧ q (f a) = false) :
    (updateFirst p f l).filter q = l.filter q := by
  induction l with
  | nil => rfl
  | cons a rest ih =>
      by_cases hp : p a = true
      · obtain ⟨hqa, hqfa⟩ := h a hp
        simp [updateFirst, hp, List.filter_cons, hqa, hqfa]
      · simp only [Bool.not_eq_true] at hp
        simp only [updateFirst, hp, Bool.false_eq_true, if_false]
        simp [List.filter_cons, ih]

lemma tokenFilter_applyTokenOp_avoid (db : Db) (tok : String) (op : TokenOp)
    (h : opAvoidsToken tok op = true) :
    tokenFilter (applyTokenOp db op) tok = tokenFilter db tok := by
  cases op with
  | create u b t e =>
      simp only [opAvoidsToken, bne_iff_ne, ne_eq] at h
      simp only [applyTokenOp, create_user_token, tokenFilter,
        List.filter_append]
      have hone : (([{ user_id := u, board_id := b, token := t,
                       expires_at := e, is_revoked := false }] :
            List UserTokenRow).filter fun r => r.token == tok) = [] := by
        simp [h]
      rw [hone, List.append_nil]
  | revoke t =>
      simp only [opAvoidsToken, bne_iff_ne, ne_eq] at h
      simp only [applyTokenOp, revoke_user_token, tokenFilter]
      apply filter_updateFirst_of_disjoint
      intro a hp
      simp only [beq_iff_eq] at hp
      constructor <;> simp [hp, h]

lemma tokenFilter_applyTokenOps_avoid (ops : List TokenOp) :
    ∀ (db : Db) (tok : String),
      (∀ op ∈ ops, opAvoidsToken tok op = true) →
      tokenFilter (applyTokenOps db ops) tok = tokenFilter db tok := by
  induction ops with
  | nil => intro db tok _; rfl
  | cons op rest ih =>
      intro db tok h
      have h1 := h op (List.mem_cons_self op rest)
      have h2 : ∀ o ∈ rest, opAvoidsToken tok o = true :=
        fun o ho => h o (List.mem_cons_of_mem op ho)
      calc tokenFilter (applyTokenOps db (op :: rest)) tok
      _ = tokenFilter (applyTokenOps (applyTokenOp db op) rest) tok := rfl
      _ = tokenFilter (applyTokenOp db op) tok := ih _ tok h2
      _ = tokenFilter db tok := tokenFilter_applyTokenOp_avoid db tok op h1

lemma find?_token_of_tokenFilter_eq (l : List UserTokenRow)
    (tok b : String) (row : UserTokenRow)
    (hfil : l.filter (fun r => r.token == tok) = [row])
    (hb : row.board_id = b) (hrev : row.is_revoked = false) :
    l.find? (fun r => r.token == tok && r.board_id == b && !r.is_revoked) =
      some row := by
  induction l with
  | nil => simp at hfil
  | cons a rest ih =>
      by_cases ha : (a.token == tok) = true
      · rw [@List.filter_cons_of_pos _ (fun r => r.token == tok) a rest ha]
          at hfil
        have ha2 : a = row := (List.cons_eq_cons.mp hfil).1
        subst ha2
        rw [List.find?_cons_of_pos _ (by simp [ha, hb, hrev])]
      · rw [List.filter_cons_of_neg (by simp [ha])] at hfil
        rw [List.find?_cons_of_neg _ (by simp [ha])]
        exact ih hfil

lemma validate_none_of_allRevoked (db : Db) (tok b : String) (now : ℚ)
    (h : allRevoked db tok) :
    validate_user_token db tok b now = none := by
  unfold validate_user_token
  have hfind : db.user_tokens.find? (fun r =>
      r.token == tok && r.board_id == b && !r.is_revoked) = none := by
    apply List.find?_eq_none.mpr
    intro r hr
    by_cases ht : (r.token == tok) = true
    · have := h r hr ht
      simp [ht, this]
    · simp only [Bool.not_eq_true] at ht
      simp [ht]
  rw [hfind]

lemma updateFirst_forall {α : Type} (p : α → Bool) (f : α → α)
    (Q : α → Prop) (l : List α) (hl : ∀ a ∈ l, Q a)
    (hf : ∀ a, Q a → Q (f a)) :
    ∀ a ∈ updateFirst p f l, Q a := by
  induction l with
  | nil => simp [updateFirst]
  | cons a rest ih =>
      intro x hx
      by_cases hp : p a = true
      · simp only [updateFirst, hp, if_pos, List.mem_cons] at hx
        rcases hx with rfl | hx
        · exact hf a (hl a (List.mem_cons_self a rest))
        · exact hl x (List.mem_cons_of_mem a hx)
      · simp only [Bool.not_eq_true] at hp
        simp only [updateFirst, hp, Bool.false_eq_true, if_false,
          List.mem_cons] at hx
        rcases hx with rfl | hx
        · exact hl x (List.mem_cons_self x rest)
        · exact ih (fun a ha => hl a (List.mem_cons_of_mem _ ha)) x hx

lemma allRevoked_applyTokenOp (db : Db) (tok : String) (op : TokenOp)
    (hop : opCreateAvoidsToken tok op = true) (h : allRevoked db tok) :
    allRevoked (applyTokenOp db op) tok := by
  cases op with
  | create u b t e =>
      simp only [opCreateAvoidsToken, bne_iff_ne, ne_eq] at hop
      intro r hr htok
      simp only [applyTokenOp, create_user_token, List.mem_append,
        List.mem_singleton] at hr
      rcases hr with hr | rfl
      · exact h r hr htok
      · simp only [beq_iff_eq] at htok
        exact absurd htok hop
  | revoke t =>
      intro r hr htok
      simp only [applyTokenOp, revoke_user_token] at hr
      have h2 : ∀ a ∈ db.user_tokens,
          (a.token == tok) = true → a.is_revoked = true := h
      exact updateFirst_forall (fun x => x.token == t)
        (fun x => { x with is_revoked := true })
        (fun x => (x.token == tok) = true → x.is_revoked = true)
        db.user_tokens h2 (fun a _ _ => rfl) r hr htok

lemma allRevoked_applyTokenOps (ops : List TokenOp) :
    ∀ (db : Db) (tok : String),
      (∀ op ∈ ops, opCreateAvoidsToken tok op = true) →
      allRevoked db tok → allRevoked (applyTokenOps db ops) tok := by
  induction ops with
  | nil => intro db tok _ h; exact h
  | cons op rest ih =>
      intro db tok hops h
      exact ih (applyTokenOp db op) tok
        (fun o ho => hops o (List.mem_cons_of_mem op ho))
        (allRevoked_applyTokenOp db tok op
          (hops op (List.mem_cons_self op rest)) h)

lemma revoke_list_allRevoked (tok : String) :
    ∀ l : List UserTokenRow,
      (l.filter fun r => r.token == tok).length ≤ 1 →
      ∀ r ∈ updateFirst (fun r => r.token == tok)
          (fun r => { r with is_revoked := true }) l,
        (r.token == tok) = true → r.is_revoked = true := by
  intro l
  induction l with
  | nil => simp [updateFirst]
  | cons a rest ih =>
      intro h r hr
      by_cases ha : (a.token == tok) = true
      · rw [@List.filter_cons_of_pos _ (fun r => r.token == tok) a rest ha]
          at h
        simp only [List.length_cons] at h
        have hnil : (rest.filter fun x => x.token == tok) = [] :=
          List.length_eq_zero.mp (by omega)
        simp only [updateFirst, ha, if_pos, List.mem_cons] at hr
        rcases hr with rfl | hr
        · intro _; rfl
        · intro htok
          exfalso
          have hmem : r ∈ rest.filter fun x => x.token == tok :=
            List.mem_filter.mpr ⟨hr, htok⟩
          rw [hnil] at hmem
          simp at hmem
      · rw [List.filter_cons_of_neg (by simp [ha])] at h
        simp only [Bool.not_eq_true] at ha
        simp only [updateFirst, ha, Bool.false_eq_true, if_false,
          List.mem_cons] at hr
        rcases hr with rfl | hr
        · intro htok; rw [ha] at htok; exact absurd htok (by simp)
        · exact ih h r hr

lemma allRevoked_after_revoke (db : Db) (tok : String)
    (h : (tokenFilter db tok).length ≤ 1) :
    allRevoked (revoke_user_token db tok) tok := by
  intro r hr
  simp only [revoke_user_token] at hr
  exact revoke_list_allRevoked tok db.user_tokens h r hr

lemma updateFirst_idem {α : Type} (p : α → Bool) (f : α → α)
    (hp : ∀ a, p a = true → p (f a) = true) (hf : ∀ a, f (f a) = f a)
    (l : List α) :
    updateFirst p f (updateFirst p f l) = updateFirst p f l := by
  induction l with
  | nil => rfl
  | cons a rest ih =>
      by_cases ha : p a = true
      · simp [updateFirst, ha, hp a ha, hf a]
      · simp only [Bool.not_eq_true] at ha
        simp [updateFirst, ha, ih]

/-- C3: a token issued by `create_user_token` for `(u, b)` with a fresh
token string validates to exactly `u` on board `b` through any later
operations that neither reuse nor revoke that token string, as long as it
is not past `expires_at`; once `revoke_user_token` has run on it (the
token string being unique, as `secrets.token_urlsafe` guarantees),
validation returns `none` at every later state reachable without minting
the same string again; and revoking is idempotent. -/
theorem token_lifecycle :
    (∀ (db : Db) (u b tok : String) (exp : Option ℚ) (now : ℚ)
        (ops : List TokenOp),
      (∀ r ∈ db.user_tokens, (r.token == tok) = false) →
      (∀ op ∈ ops, opAvoidsToken tok op = true) →
      (∀ e, exp = some e → ¬ e < now) →
      validate_user_token
        (applyTokenOps (create_user_token db u b tok exp) ops) tok b now =
        some u) ∧
    (∀ (db : Db) (b tok : String) (now : ℚ) (ops : List TokenOp),
      (tokenFilter db tok).length ≤ 1 →
      (∀ op ∈ ops, opCreateAvoidsToken tok op = true) →
      validate_user_token
        (applyTokenOps (revoke_user_token db tok) ops) tok b now = none) ∧
    (∀ (db : Db) (tok : String),
      revoke_user_token (revoke_user_token db tok) tok =
        revoke_user_token db tok) := by
  refine ⟨?_, ?_, ?_⟩
  · intro db u b tok exp now ops hfresh hops hexp
    have hfil0 : tokenFilter (create_user_token db u b tok exp) tok =
        [{ user_id := u, board_id := b, token := tok, expires_at := exp,
           is_revoked := false }] := by
      simp only [tokenFilter, create_user_token, List.filter_append]
      rw [List.filter_eq_nil_iff.mpr
        (fun r hr => by simp [hfresh r hr])]
      simp
    have hfil : tokenFilter
        (applyTokenOps (create_user_token db u b tok exp) ops) tok =
        [{ user_id := u, board_id := b, token := tok, expires_at := exp,
           is_revoked := false }] := by
      rw [tokenFilter_applyTokenOps_avoid ops _ tok hops, hfil0]
    unfold validate_user_token
    rw [find?_token_of_tokenFilter_eq _ tok b _ hfil rfl rfl]
    cases exp with
    | none => rfl
    | some e =>
        show (if e < now then none else some u) = some u
        rw [if_neg (hexp e rfl)]
  · intro db b tok now ops huniq hops
    exact validate_none_of_allRevoked _ tok b now
      (allRevoked_applyTokenOps ops _ tok hops
        (allRevoked_after_revoke db tok huniq))
  · intro db tok
    simp only [revoke_user_token]
    rw [updateFirst_idem (fun r => r.token == tok)
      (fun r => { r with is_revoked := true })
      (fun a h => h) (fun a => rfl) db.user_tokens]

/-- Witness for the claim C3 theorem at concrete inputs: a token survives
an unrelated later issuance, fails validation after revocation, and a
second revocation changes nothing. -/
theorem token_lifecycle_witness :
    validate_user_token
        (applyTokenOps (create_user_token Db.empty "u1" "BRDAAA" "tk" none)
          [TokenOp.create "u2" "BRDAAA" "tk2" none]) "tk" "BRDAAA" 0 =
      some "u1" ∧
    validate_user_token
        (applyTokenOps
          (revoke_user_token
            (create_user_token Db.empty "u1" "BRDAAA" "tk" none) "tk") [])
        "tk" "BRDAAA" 0 = none ∧
    revoke_user_token
        (revoke_user_token
          (create_user_token Db.empty "u1" "BRDAAA" "tk" none) "tk") "tk" =
      revoke_user_token
        (create_user_token Db.empty "u1" "BRDAAA" "tk" none) "tk" :=
  ⟨token_lifecycle.1 Db.empty "u1" "BRDAAA" "tk" none 0
      [TokenOp.create "u2" "BRDAAA" "tk2" none]
      (by decide) (by decide) (fun e he => nomatch he),
   token_lifecycle.2.1 (create_user_token Db.empty "u1" "BRDAAA" "tk" none)
      "BRDAAA" "tk" 0 [] (by decide) (by decide),
   token_lifecycle.2.2 _ "tk"⟩

/-! ## Admin timer lifecycle claims -/

/-- The timer rows of one board. -/
def timersFor (db : Db) (board_id : String) : List AdminTimerRow :=
  db.admin_timers.filter fun t => t.board_id == board_id

lemma updateFirst_of_no_match {α : Type} (p : α → Bool) (f : α → α)
    (l : List α) (h : ∀ a ∈ l, p a = false) : updateFirst p f l = l := by
  induction l with
  | nil => rfl
  | cons a rest ih =>
      have ha := h a (List.mem_cons_self a rest)
      simp only [updateFirst, ha, Bool.false_eq_true, if_false]
      rw [ih fun x hx => h x (List.mem_cons_of_mem a hx)]

lemma find?_updateFirst_of_disjoint {α : Type} (p q : α → Bool) (f : α → α)
    (l : List α) (h : ∀ a, p a = true → q a = false ∧ q (f a) = false) :
    (updateFirst p f l).find? q = l.find? q := by
  induction l with
  | nil => rfl
  | cons a rest ih =>
      by_cases hp : p a = true
      · obtain ⟨hqa, hqfa⟩ := h a hp
        simp only [updateFirst, hp, if_pos]
        rw [List.find?_cons_of_neg _ (by simp [hqfa]),
          List.find?_cons_of_neg _ (by simp [hqa])]
      · simp only [Bool.not_eq_true] at hp
        simp only [updateFirst, hp, Bool.false_eq_true, if_false]
        by_cases hq : q a = true
        · rw [List.find?_cons_of_pos _ hq, List.find?_cons_of_pos _ hq]
        · rw [List.find?_cons_of_neg _ hq, List.find?_cons_of_neg _ hq]
          exact ih

lemma filter_updateFirst_single {α : Type} (p : α → Bool) (f : α → α)
    (hpf : ∀ a, p a = true → p (f a) = true) :
    ∀ (l : List α) (a0 : α), (l.filter p).length ≤ 1 →
      l.find? p = some a0 → (updateFirst p f l).filter p = [f a0] := by
  intro l
  induction l with
  | nil => intro a0 _ hfind; simp at hfind
  | cons a rest ih =>
      intro a0 hlen hfind
      by_cases hp : p a = true
      · rw [List.find?_cons_of_pos _ hp] at hfind
        obtain rfl : a = a0 := by injection hfind
        rw [@List.filter_cons_of_pos _ p a rest hp] at hlen
        simp only [List.length_cons] at hlen
        have hnil : rest.filter p = [] := List.length_eq_zero.mp (by omega)
        simp only [updateFirst, hp, if_pos]
        rw [List.filter_cons_of_pos (hpf a hp), hnil]
      · simp only [Bool.not_eq_true] at hp
        rw [List.find?_cons_of_neg _ (by simp [hp])] at hfind
        rw [List.filter_cons_of_neg (by simp [hp])] at hlen
        simp only [updateFirst, hp, Bool.false_eq_true, if_false]
        rw [List.filter_cons_of_neg (by simp [hp])]
        exact ih a0 hlen hfind

lemma timersFor_create_admin_timer (db : Db) (board_id : String) (now : ℚ)
    (h : (timersFor db board_id).length ≤ 1) :
    timersFor (create_admin_timer db board_id now) board_id =
      [{ board_id := board_id, admin_disconnected_at := now,
         scheduled_shutdown_at := now + 600, is_active := true }] := by
  unfold create_admin_timer
  cases hfind : db.admin_timers.find? (fun t => t.board_id == board_id) with
  | none =>
      have hnone := List.find?_eq_none.mp hfind
      simp only [timersFor, List.filter_append]
      rw [List.filter_eq_nil_iff.mpr hnone]
      simp
  | some t0 =>
      have ht0 := List.find?_some hfind
      have ht0id : t0.board_id = board_id := beq_iff_eq.mp ht0
      simp only [timersFor]
      rw [filter_updateFirst_single
        (fun (t : AdminTimerRow) => t.board_id == board_id)
        (fun (t : AdminTimerRow) => { t with
                    admin_disconnected_at := now,
                    scheduled_shutdown_at := now + 600,
                    is_active := true })
        (fun a ha => ha) db.admin_timers t0 h hfind]
      simp [ht0id]

lemma boards_create_admin_timer (db : Db) (board_id : String) (now : ℚ) :
    (create_admin_timer db board_id now).boards = db.boards := by
  unfold create_admin_timer
  cases db.admin_timers.find? (fun t => t.board_id == board_id) <;> rfl

lemma boards_ws_disconnect (db : Db) (board_id user_id : String) (now : ℚ) :
    (ws_disconnect db board_id user_id now).boards = db.boards := by
  simp only [ws_disconnect]
  split
  · split
    · exact boards_create_admin_timer _ board_id now
    · rfl
  · rfl

lemma get_board_of_boards_eq (db1 db2 : Db) (board_id : String)
    (h : db1.boards = db2.boards) :
    get_board db1 board_id = get_board db2 board_id := by
  unfold get_board; rw [h]

lemma timersFor_ws_disconnect_admin (db : Db) (board_id : String)
    (now : ℚ) (board : BoardRow) (hb : get_board db board_id = some board)
    (h : (timersFor db board_id).length ≤ 1) :
    timersFor (ws_disconnect db board_id board.admin_id now) board_id =
      [{ board_id := board_id, admin_disconnected_at := now,
         scheduled_shutdown_at := now + 600, is_active := true }] := by
  simp only [ws_disconnect]
  have hb2 : get_board (remove_active_connection
      (disconnect_user db board.admin_id board_id) board_id board.admin_id)
      board_id = some board := hb
  rw [hb2]
  simp only [beq_self_eq_true, if_true]
  exact timersFor_create_admin_timer _ board_id now h

lemma mem_filter_board_ne (bid : String) (l : List AdminTimerRow)
    (hnil : (l.filter fun t => t.board_id == bid) = []) :
    ∀ t ∈ l, (t.board_id == bid) = false := by
  intro t ht
  by_cases hb : (t.board_id == bid) = true
  · exfalso
    have : t ∈ l.filter fun t => t.board_id == bid :=
      List.mem_filter.mpr ⟨ht, hb⟩
    rw [hnil] at this
    simp at this
  · simpa using hb

lemma cancel_list_inactive (bid : String) :
    ∀ l : List AdminTimerRow,
      (l.filter fun t => t.board_id == bid).length ≤ 1 →
      ∀ t ∈ (updateFirst (fun t => t.board_id == bid && t.is_active)
          (fun t => { t with is_active := false }) l).filter
          (fun t => t.board_id == bid),
        t.is_active = false := by
  intro l
  induction l with
  | nil => simp [updateFirst]
  | cons a rest ih =>
      intro h t ht
      by_cases hb : (a.board_id == bid) = true
      · rw [@List.filter_cons_of_pos _ (fun t => t.board_id == bid) a rest hb]
          at h
        simp only [List.length_cons] at h
        have hnil : (rest.filter fun t => t.board_id == bid) = [] :=
          List.length_eq_zero.mp (by omega)
        have hrest := mem_filter_board_ne bid rest hnil
        by_cases hact : a.is_active = true
        · have hp : (a.board_id == bid && a.is_active) = true := by
            simp [hb, hact]
          simp only [updateFirst, hp, if_pos] at ht
          rw [List.filter_cons_of_pos (by simpa using hb)] at ht
          rw [hnil] at ht
          simp only [List.mem_singleton] at ht
          subst ht
          rfl
        · simp only [Bool.not_eq_true] at hact
          have hp : (a.board_id == bid && a.is_active) = false := by
            simp [hact]
          simp only [updateFirst, hp, Bool.false_eq_true, if_false] at ht
          rw [updateFirst_of_no_match _ _ rest
            (fun x hx => by simp [hrest x hx])] at ht
          rw [@List.filter_cons_of_pos _ (fun t => t.board_id == bid)
            a rest hb, hnil] at ht
          simp only [List.mem_singleton] at ht
          subst ht
          exact hact
      · have hp : (a.board_id == bid && a.is_active) = false := by
          simp only [Bool.not_eq_true] at hb
          simp [hb]
        rw [@List.filter_cons_of_neg _ (fun t => t.board_id == bid) a rest
          (by simp [hb])] at h
        simp only [updateFirst, hp, Bool.false_eq_true, if_false] at ht
        rw [@List.filter_cons_of_neg _ (fun t => t.board_id == bid) a
          (updateFirst (fun t => t.board_id == bid && t.is_active)
            (fun t => { t with is_active := false }) rest)
          (by simp [hb])] at ht
        exact ih h t ht

lemma get_board_deactivate_other (db : Db) (bid target : String)
    (h : target ≠ bid) :
    get_board (deactivate_board db target) bid = get_board db bid := by
  unfold get_board deactivate_board
  apply find?_updateFirst_of_disjoint
  intro a hp
  have hp2 := hp
  simp only [Bool.and_eq_true] at hp2
  have hid : a.board_id = target := beq_iff_eq.mp hp2.1
  constructor
  · simp [hid, h]
  · simp [hid, h]

lemma get_board_poll_step (db : Db) (bid target aid : String)
    (h : target ≠ bid) :
    get_board (cancel_admin_timer (end_session db target aid).1 target) bid =
      get_board db bid := by
  have hboards : (cancel_admin_timer (end_session db target aid).1
      target).boards = (deactivate_board db target).boards := rfl
  rw [get_board_of_boards_eq _ (deactivate_board db target) bid hboards]
  exact get_board_deactivate_other db bid target h

lemma foldl_poll_preserves (bid : String) :
    ∀ (l : List AdminTimerRow) (d : Db),
      (∀ t ∈ l, (t.board_id == bid) = false) →
      get_board (l.foldl (fun d t =>
        cancel_admin_timer (end_session d t.board_id "system").1
          t.board_id) d) bid = get_board d bid := by
  intro l
  induction l with
  | nil => intro d _; rfl
  | cons t rest ih =>
      intro d h
      rw [List.foldl_cons]
      rw [ih _ (fun x hx => h x (List.mem_cons_of_mem t hx))]
      exact get_board_poll_step d bid t.board_id "system"
        (by simpa [beq_iff_eq] using h t (List.mem_cons_self t rest))

lemma poll_preserves_get_board (db : Db) (tp : ℚ) (bid : String)
    (h : ∀ t ∈ timersFor db bid, t.is_active = false) :
    get_board (check_admin_timers_poll db tp) bid = get_board db bid := by
  unfold check_admin_timers_poll
  apply foldl_poll_preserves
  intro t ht
  simp only [get_expired_admin_timers, List.mem_filter,
    Bool.and_eq_true, decide_eq_true_eq] at ht
  obtain ⟨hmem, hact, _⟩ := ht
  by_cases hb : (t.board_id == bid) = true
  · exfalso
    have := h t (List.mem_filter.mpr ⟨hmem, hb⟩)
    rw [hact] at this
    simp at this
  · simpa using hb

lemma find?_active_deactivate (bid : String) :
    ∀ l : List BoardRow,
      (l.filter fun b => b.board_id == bid).length ≤ 1 →
      (updateFirst (fun b => b.board_id == bid && b.is_active)
        (fun b => { b with is_active := false }) l).find?
        (fun b => b.board_id == bid && b.is_active) = none := by
  intro l
  induction l with
  | nil => intro _; rfl
  | cons a rest ih =>
      intro h
      by_cases hb : (a.board_id == bid) = true
      · rw [@List.filter_cons_of_pos _ (fun b => b.board_id == bid) a rest hb]
          at h
        simp only [List.length_cons] at h
        have hnil : (rest.filter fun b => b.board_id == bid) = [] :=
          List.length_eq_zero.mp (by omega)
        have hrest : ∀ x ∈ rest, (x.board_id == bid) = false := by
          intro x hx
          by_cases hxb : (x.board_id == bid) = true
          · exfalso
            have : x ∈ rest.filter fun b => b.board_id == bid :=
              List.mem_filter.mpr ⟨hx, hxb⟩
            rw [hnil] at this
            simp at this
          · simpa using hxb
        have hfr : rest.find? (fun b => b.board_id == bid && b.is_active) =
            none :=
          List.find?_eq_none.mpr (fun x hx => by simp [hrest x hx])
        by_cases hact : a.is_active = true
        · have hp : (a.board_id == bid && a.is_active) = true := by
            simp [hb, hact]
          simp only [updateFirst, hp, if_pos]
          rw [List.find?_cons_of_neg _ (by simp)]
          exact hfr
        · simp only [Bool.not_eq_true] at hact
          have hp : (a.board_id == bid && a.is_active) = false := by
            simp [hact]
          simp only [updateFirst, hp, Bool.false_eq_true, if_false]
          rw [updateFirst_of_no_match _ _ rest
            (fun x hx => by simp [hrest x hx])]
          rw [List.find?_cons_of_neg _ (by simp [hact])]
          exact hfr
      · have hp : (a.board_id == bid && a.is_active) = false := by
          simp only [Bool.not_eq_true] at hb
          simp [hb]
        rw [@List.filter_cons_of_neg _ (fun b => b.board_id == bid) a rest
          (by simp [hb])] at h
        simp only [updateFirst, hp, Bool.false_eq_true, if_false]
        rw [List.find?_cons_of_neg _ (by simp [hp])]
        exact ih h

lemma admin_timers_update_connection_state_default (db : Db)
    (board_id user_id : String) (now : ℚ) :
    (update_connection_state_default db board_id user_id now).admin_timers =
      db.admin_timers := by
  unfold update_connection_state_default
  split <;> rfl

lemma boards_update_connection_state_default (db : Db)
    (board_id user_id : String) (now : ℚ) :
    (update_connection_state_default db board_id user_id now).boards =
      db.boards := by
  unfold update_connection_state_default
  split <;> rfl

lemma join_board_rejoin_proj (db : Db) (bid tok nuid ntok : String)
    (now : ℚ) (board : BoardRow) (hb : get_board db bid = some board)
    (hval : validate_user_token db tok bid now = some board.admin_id) :
    (join_board db bid (some tok) nuid ntok now).2.admin_timers =
      updateFirst (fun t => t.board_id == bid && t.is_active)
        (fun t => { t with is_active := false }) db.admin_timers ∧
    (join_board db bid (some tok) nuid ntok now).2.boards = db.boards := by
  simp only [join_board, hb, hval, beq_self_eq_true, if_true]
  constructor
  · simp only [cancel_admin_timer]
    rw [admin_timers_update_connection_state_default]
    rfl
  · show (cancel_admin_timer _ bid).boards = db.boards
    have : (cancel_admin_timer (update_connection_state_default
        (add_active_connection
          { db with
            users := updateFirst
              (fun u => u.user_id == board.admin_id && u.board_id == bid)
              (fun u => { u with connected := true }) db.users }
          bid board.admin_id now) bid board.admin_id now) bid).boards =
        (update_connection_state_default (add_active_connection
          { db with
            users := updateFirst
              (fun u => u.user_id == board.admin_id && u.board_id == bid)
              (fun u => { u with connected := true }) db.users }
          bid board.admin_id now) bid board.admin_id now).boards := rfl
    rw [this, boards_update_connection_state_default]
    rfl

/-- C5: (a) an admin disconnect (re)creates the board's single admin
timer, active and scheduled to fire at the disconnect time + 600 s;
(b) an admin reconnect with a valid token strictly before the scheduled
time cancels it — every timer row of the board is inactive afterwards,
the board is still active, and a later timer-poll pass leaves the board
alive (no auto-termination that cycle); (c) a second disconnect while
counting down reschedules the one timer row (never stacks a second one);
(d) once the poll has fired on the expired timer the board is
deactivated, and a later reconnect attempt fails with not-found and does
not resurrect it. -/
theorem admin_timer_lifecycle :
    (∀ (db : Db) (board_id : String) (now : ℚ) (board : BoardRow),
      get_board db board_id = some board →
      (timersFor db board_id).length ≤ 1 →
      timersFor (ws_disconnect db board_id board.admin_id now) board_id =
        [{ board_id := board_id, admin_disconnected_at := now,
           scheduled_shutdown_at := now + 600, is_active := true }]) ∧
    (∀ (db : Db) (board_id tok nuid ntok : String) (t_disc t_rec tp : ℚ)
        (board : BoardRow),
      get_board db board_id = some board →
      (timersFor db board_id).length ≤ 1 →
      t_rec < t_disc + 600 →
      validate_user_token (ws_disconnect db board_id board.admin_id t_disc)
        tok board_id t_rec = some board.admin_id →
      (∀ t ∈ timersFor (join_board
          (ws_disconnect db board_id board.admin_id t_disc) board_id
          (some tok) nuid ntok t_rec).2 board_id, t.is_active = false) ∧
      get_board (join_board (ws_disconnect db board_id board.admin_id t_disc)
        board_id (some tok) nuid ntok t_rec).2 board_id = some board ∧
      get_board (check_admin_timers_poll (join_board
        (ws_disconnect db board_id board.admin_id t_disc) board_id
        (some tok) nuid ntok t_rec).2 tp) board_id = some board) ∧
    (∀ (db : Db) (board_id : String) (t1 t2 : ℚ) (board : BoardRow),
      get_board db board_id = some board →
      (timersFor db board_id).length ≤ 1 →
      timersFor (ws_disconnect (ws_disconnect db board_id board.admin_id t1)
        board_id board.admin_id t2) board_id =
        [{ board_id := board_id, admin_disconnected_at := t2,
           scheduled_shutdown_at := t2 + 600, is_active := true }]) ∧
    (∀ (db : Db) (board_id : String) (tc tr : ℚ) (trow : AdminTimerRow)
        (tok : Option String) (nuid ntok : String),
      get_expired_admin_timers db tc = [trow] →
      trow.board_id = board_id →
      (db.boards.filter fun b => b.board_id == board_id).length ≤ 1 →
      get_board (check_admin_timers_poll db tc) board_id = none ∧
      join_board (check_admin_timers_poll db tc) board_id tok nuid ntok tr =
        (JoinResult.notFound, check_admin_timers_poll db tc)) := by
  refine ⟨?_, ?_, ?_, ?_⟩
  · intro db board_id now board hb hlen
    exact timersFor_ws_disconnect_admin db board_id now board hb hlen
  · intro db board_id tok nuid ntok t_disc t_rec tp board hb hlen _ hval
    have hb1 : get_board (ws_disconnect db board_id board.admin_id t_disc)
        board_id = some board := by
      rw [get_board_of_boards_eq _ db board_id
        (boards_ws_disconnect db board_id board.admin_id t_disc)]
      exact hb
    have htim1 := timersFor_ws_disconnect_admin db board_id t_disc board
      hb hlen
    obtain ⟨hAT, hBD⟩ := join_board_rejoin_proj
      (ws_disconnect db board_id board.admin_id t_disc) board_id tok nuid
      ntok t_rec board hb1 hval
    have hinact : ∀ t ∈ timersFor (join_board
        (ws_disconnect db board_id board.admin_id t_disc) board_id
        (some tok) nuid ntok t_rec).2 board_id, t.is_active = false := by
      intro t ht
      unfold timersFor at ht
      rw [hAT] at ht
      refine cancel_list_inactive board_id
        (ws_disconnect db board_id board.admin_id t_disc).admin_timers
        ?_ t ht
      have : timersFor (ws_disconnect db board_id board.admin_id t_disc)
          board_id =
          [{ board_id := board_id, admin_disconnected_at := t_disc,
             scheduled_shutdown_at := t_disc + 600, is_active := true }] :=
        htim1
      unfold timersFor at this
      rw [this]
      simp
    have hb2 : get_board (join_board
        (ws_disconnect db board_id board.admin_id t_disc) board_id
        (some tok) nuid ntok t_rec).2 board_id = some board := by
      rw [get_board_of_boards_eq _
        (ws_disconnect db board_id board.admin_id t_disc) board_id hBD]
      exact hb1
    refine ⟨hinact, hb2, ?_⟩
    rw [poll_preserves_get_board _ tp board_id hinact]
    exact hb2
  · intro db board_id t1 t2 board hb hlen
    have hb1 : get_board (ws_disconnect db board_id board.admin_id t1)
        board_id = some board := by
      rw [get_board_of_boards_eq _ db board_id
        (boards_ws_disconnect db board_id board.admin_id t1)]
      exact hb
    have h1 := timersFor_ws_disconnect_admin db board_id t1 board hb hlen
    exact timersFor_ws_disconnect_admin _ board_id t2 board hb1
      (by rw [h1]; simp)
  · intro db board_id tc tr trow tok nuid ntok hexp hbid huniq
    have hpoll : check_admin_timers_poll db tc =
        cancel_admin_timer (end_session db trow.board_id "system").1
          trow.board_id := by
      unfold check_admin_timers_poll
      rw [hexp]
      rfl
    have hgb : get_board (check_admin_timers_poll db tc) board_id = none := by
      rw [hpoll, hbid]
      have hboards : (cancel_admin_timer
          (end_session db board_id "system").1 board_id).boards =
          (deactivate_board db board_id).boards := rfl
      rw [get_board_of_boards_eq _ (deactivate_board db board_id) board_id
        hboards]
      exact find?_active_deactivate board_id db.boards huniq
    refine ⟨hgb, ?_⟩
    simp only [join_board, hgb]

/-- Demo board for the admin-timer witness. -/
def timerDemoBoard : BoardRow := { board_id := "BRDAAA", admin_id := "adm" }

/-- Demo database: one board, its admin user, and the admin's token. -/
def timerDemoDb : Db :=
  { Db.empty with
    boards := [timerDemoBoard],
    users := [{ user_id := "adm", board_id := "BRDAAA",
                nickname := "Admin", role := "admin" }],
    user_tokens := [{ user_id := "adm", board_id := "BRDAAA",
                      token := "tk" }] }

/-- Demo database holding an expired active admin timer. -/
def timerExpiredDb : Db :=
  { Db.empty with
    boards := [timerDemoBoard],
    admin_timers := [{ board_id := "BRDAAA", admin_disconnected_at := 0,
                       scheduled_shutdown_at := 600 }] }

/-- Witness for the claim C5 theorem: disconnect at 0 schedules 600;
reconnect at 10 with the admin token cancels and survives a poll at
10000; a second disconnect at 7 reschedules to 607; with an expired
timer, the poll at 600 kills the board and a join at 700 finds
nothing. -/
theorem admin_timer_lifecycle_witness :
    (timersFor (ws_disconnect timerDemoDb "BRDAAA"
        timerDemoBoard.admin_id 0) "BRDAAA" =
      [{ board_id := "BRDAAA", admin_disconnected_at := 0,
         scheduled_shutdown_at := 0 + 600, is_active := true }]) ∧
    ((∀ t ∈ timersFor (join_board (ws_disconnect timerDemoDb "BRDAAA"
          timerDemoBoard.admin_id 0) "BRDAAA" (some "tk") "nid" "ntk"
          10).2 "BRDAAA", t.is_active = false) ∧
      get_board (join_board (ws_disconnect timerDemoDb "BRDAAA"
          timerDemoBoard.admin_id 0) "BRDAAA" (some "tk") "nid" "ntk"
          10).2 "BRDAAA" = some timerDemoBoard ∧
      get_board (check_admin_timers_poll (join_board
          (ws_disconnect timerDemoDb "BRDAAA" timerDemoBoard.admin_id 0)
          "BRDAAA" (some "tk") "nid" "ntk" 10).2 10000) "BRDAAA" =
        some timerDemoBoard) ∧
    (timersFor (ws_disconnect (ws_disconnect timerDemoDb "BRDAAA"
        timerDemoBoard.admin_id 0) "BRDAAA" timerDemoBoard.admin_id 7)
        "BRDAAA" =
      [{ board_id := "BRDAAA", admin_disconnected_at := 7,
         scheduled_shutdown_at := 7 + 600, is_active := true }]) ∧
    (get_board (check_admin_timers_poll timerExpiredDb 600) "BRDAAA" =
        none ∧
      join_board (check_admin_timers_poll timerExpiredDb 600) "BRDAAA"
          none "nid" "ntk" 700 =
        (JoinResult.notFound, check_admin_timers_poll timerExpiredDb 600)) :=
  ⟨admin_timer_lifecycle.1 timerDemoDb "BRDAAA" 0 timerDemoBoard
      (by decide) (by decide),
   admin_timer_lifecycle.2.1 timerDemoDb "BRDAAA" "tk" "nid" "ntk" 0 10
      10000 timerDemoBoard (by decide) (by decide) (by norm_num)
      (by decide),
   admin_timer_lifecycle.2.2.1 timerDemoDb "BRDAAA" 0 7 timerDemoBoard
      (by decide) (by decide),
   admin_timer_lifecycle.2.2.2 timerExpiredDb "BRDAAA" 600 700
      { board_id := "BRDAAA", admin_disconnected_at := 0,
        scheduled_shutdown_at := 600 } none "nid" "ntk"
      (by decide) rfl (by decide)⟩
